import Mathlib

/-!
Verification development for the CropXR dataxr-toolkit research-drive
folder scaffolding tool.

The Python sources embedded here are:
* `src/dataxr_tools/research_drive/create_study_folder.py`
  (`create_folder_structure`, `create_subfolders`, `create_folder_policy`,
  `filter_owners_and_pis_with_write_share_access`, `parse_users_from_study_json`)
* `src/dataxr_tools/research_drive/ISADirectoryCreator.py`
  (`create_directory_structure`)

The filesystem is modelled as an association list from paths (lists of
segments) to entries (directory, or file with content).  A lookup takes the
first matching binding, so writing is modelled by consing a new binding in
front.  `os.makedirs` is modelled as creating every missing ancestor as a
directory; the Python error cases where a regular file occupies an ancestor
(which would raise `FileExistsError` / `NotADirectoryError`) are not modelled
— no claim depends on them, and where a write could collide with a directory
the theorems carry explicit hypotheses.  The `try/except` blocks of
`create_folder_policy` are modelled by total guarded operations (`tryCopy2`,
`tryWrite`) plus explicit failure flags, mirroring the fact that those
exceptions are caught and logged.
-/

namespace DataXR

/-- A filesystem path, relative to a virtual root, one list element per
segment (the modelling counterpart of an `os.path` string). -/
abbrev Path := List String

/-- A filesystem entry: a directory or a regular file with its content. -/
inductive Entry where
  | dir : Entry
  | file (content : String) : Entry
deriving DecidableEq, Repr

/-- The filesystem state: an association list from paths to entries.  The
first binding for a path wins, so updates shadow older bindings. -/
abbrev FS := List (Path × Entry)

/-- Look up the entry at a path (first binding wins). -/
def fsFind : FS → Path → Option Entry
  | [], _ => none
  | (q, e) :: rest, p => if q = p then some e else fsFind rest p

/-- Model of `os.path.exists`. -/
def fsExists (fs : FS) (p : Path) : Bool :=
  (fsFind fs p).isSome

/-- Create a directory at `p` if nothing exists there (existing entries are
never replaced). -/
def setIfAbsent (fs : FS) (p : Path) : FS :=
  if (fsFind fs p).isSome then fs else (p, Entry.dir) :: fs

/-- All nonempty ancestors of a path, shortest first (`[a]`, `[a,b]`, …). -/
def ancestorsOf (p : Path) : List Path :=
  (List.range p.length).map (fun i => p.take (i + 1))

/-- Model of `os.makedirs(p, exist_ok=True)`: create every missing ancestor
of `p` (and `p` itself) as a directory.  Existing entries are untouched. -/
def mkdirs (fs : FS) (p : Path) : FS :=
  (ancestorsOf p).foldl setIfAbsent fs

/-- Unconditional file write (model of `open(p, "w").write(c)` when it
succeeds): the new binding shadows any previous one. -/
def writeFile (fs : FS) (p : Path) (c : String) : FS :=
  (p, Entry.file c) :: fs

/-- Model of `shutil.copy2(src, dst)` inside a `try/except` block.  When
`src` is a regular file and `dst` is an existing directory, Python copies
*into* the directory: the real target is `dst/<basename of src>`, whose
previous file content is overwritten; only a directory at that target makes
the (caught) `IsADirectoryError` leave the state unchanged.  When `dst` is
not a directory the file is written at `dst` itself, and when `src` is not
a regular file the raised exception is caught and nothing happens. -/
def tryCopy2 (fs : FS) (src dst : Path) : FS :=
  match fsFind fs src with
  | some (Entry.file c) =>
    match fsFind fs dst with
    | some Entry.dir =>
      match fsFind fs (dst ++ [src.getLastD ""]) with
      | some Entry.dir => fs
      | _ => writeFile fs (dst ++ [src.getLastD ""]) c
    | _ => writeFile fs dst c
  | _ => fs

/-- Model of `open(p, "w"); f.write(c)` inside a `try/except` block: the
write happens only when the parent of `p` is a directory and `p` itself is
not a directory; otherwise the exception is caught and the state is
unchanged. -/
def tryWrite (fs : FS) (p : Path) (c : String) : FS :=
  match fsFind fs p.dropLast with
  | some Entry.dir =>
    match fsFind fs p with
    | some Entry.dir => fs
    | _ => writeFile fs p c
  | _ => fs

/-- `p` is a directory in `fs`. -/
def isDir (fs : FS) (p : Path) : Prop :=
  fsFind fs p = some Entry.dir

instance (fs : FS) (p : Path) : Decidable (isDir fs p) := by
  unfold isDir; infer_instance

/-- The value of a structure-definition node, mirroring the JSON/YAML values
the Python code dispatches on with `isinstance`: `None`, a string, a list of
sibling names, or a nested mapping (association list, preserving the
insertion order of the Python `dict`). -/
inductive StructVal where
  | null : StructVal
  | str (s : String) : StructVal
  | list (names : List String) : StructVal
  | map (entries : List (String × StructVal)) : StructVal

mutual

/-- Model of `create_subfolders(parent_path, struct)` from
`create_study_folder.py` (lines 166–198): `None` and string values create
nothing, a list creates one guarded empty directory per name, a mapping
creates a guarded directory per key and recurses into the value.  It never
writes a file and never touches an existing entry. -/
def createSubfolders (v : StructVal) (parent : Path) (fs : FS) : FS :=
  match v with
  | StructVal.null => fs
  | StructVal.str _ => fs
  | StructVal.list names =>
    names.foldl
      (fun acc n =>
        if fsExists acc (parent ++ [n]) then acc else mkdirs acc (parent ++ [n]))
      fs
  | StructVal.map entries => createSubfoldersMap entries parent fs

/-- The `dict` branch loop of `create_subfolders`. -/
def createSubfoldersMap (entries : List (String × StructVal)) (parent : Path)
    (fs : FS) : FS :=
  match entries with
  | [] => fs
  | (k, sub) :: rest =>
    let p := parent ++ [k]
    let fs1 := if fsExists fs p then fs else mkdirs fs p
    let fs2 := createSubfolders sub p fs1
    createSubfoldersMap rest parent fs2

end

/-- Python truthiness of an optional string (`None` and `""` are falsy). -/
def truthy : Option String → Bool
  | none => false
  | some s => !(s == "")

/-- Python `str(x)` for an optional string as it appears inside an f-string
(`None` renders as `"None"`). -/
def pyStr : Option String → String
  | none => "None"
  | some s => s

/-- Python `x or d` on an optional string (falsy values replaced by `d`). -/
def orDefault (o : Option String) (d : String) : String :=
  match o with
  | none => d
  | some s => if s = "" then d else s

/-- Split a character list at every occurrence of `c` (like Python
`str.split`). -/
def splitOnChar (c : Char) : List Char → List (List Char)
  | [] => [[]]
  | x :: xs =>
    if x = c then [] :: splitOnChar c xs
    else
      match splitOnChar c xs with
      | [] => [[x]]
      | y :: ys => (x :: y) :: ys

/-- Python `s.split(sep)` for a single-character separator, over the
characters of `s` (structurally recursive, unlike `String.splitOn`). -/
def strSplitChar (c : Char) (s : String) : List String :=
  (splitOnChar c s.data).map (fun l => String.mk l)

/-- Python `s.split("/")`. -/
def strSplitSlash (s : String) : List String :=
  strSplitChar '/' s

/-- Python `sub in s` for a single character `sub` (also `str.contains`). -/
def strHasChar (s : String) (c : Char) : Bool :=
  s.data.contains c

/-- Boolean list-prefix test over characters. -/
def listStartsWith : List Char → List Char → Bool
  | [], _ => true
  | _ :: _, [] => false
  | x :: xs, y :: ys => x = y && listStartsWith xs ys

/-- Python `s.startswith(pre)` (structurally recursive, unlike
`String.startsWith`). -/
def strStartsWith (s pre : String) : Bool :=
  listStartsWith pre.data s.data

/-- Python `s.endswith(suf)`. -/
def strEndsWith (s suf : String) : Bool :=
  listStartsWith suf.data.reverse s.data.reverse

/-- Python whitespace for `str.strip()`. -/
def isPyWs (c : Char) : Bool :=
  c = ' ' || c = '\t' || c = '\n' || c = '\r' || c = '\x0b' || c = '\x0c'

/-- Python `s.strip()`: remove whitespace from both ends. -/
def pyStrip (s : String) : String :=
  String.mk (((s.data.dropWhile isPyWs).reverse.dropWhile isPyWs).reverse)

/-- Python `s.lower()` (ASCII, structurally recursive). -/
def strLower (s : String) : String :=
  String.mk (s.data.map Char.toLower)

/-- Python `s.upper()` (ASCII, structurally recursive). -/
def strUpper (s : String) : String :=
  String.mk (s.data.map Char.toUpper)


/-- The first-level relabelling loop of `create_folder_structure`
(lines 154–163): each key `k` becomes `"<inv>-<study>_<k>"`, values and
insertion order are carried over. -/
def relabelStruct (inv st : String) (entries : List (String × StructVal)) :
    List (String × StructVal) :=
  entries.foldl (fun acc kv => acc ++ [(inv ++ "-" ++ st ++ "_" ++ kv.1, kv.2)]) []

/-- A user record, mirroring the Python dictionaries (`dict.get` returns
`None` for a missing key, hence the `Option` fields). -/
structure UserRec where
  name : Option String
  role : Option String
  access_level : Option String
  expiration : Option String
deriving DecidableEq, Repr

/-- The privileged-role test of
`filter_owners_and_pis_with_write_share_access`: role lower-cased and
compared against the fixed set, access level upper-cased and compared
against `READ-WRITE-SHARE`. -/
def isPrivileged (u : UserRec) : Bool :=
  let userRole := strLower (u.role.getD "")
  let userAccess := strUpper (u.access_level.getD "")
  (userRole == "owner" || userRole == "principal investigator" ||
      userRole == "pi" || userRole == "principal_investigator") &&
    userAccess == "READ-WRITE-SHARE"

/-- Model of `filter_owners_and_pis_with_write_share_access` (lines
386–412): the Python loop appends each matching record to a fresh list. -/
def filterOwnersAndPis (authorizedUsers : List UserRec) : List UserRec :=
  authorizedUsers.foldl (fun acc u => if isPrivileged u then acc ++ [u] else acc) []


/-- One row of the access table (`create_folder_policy`, lines 261–267). -/
def accessRow (u : UserRec) : String :=
  "| " ++ u.name.getD "[Name]" ++ " | " ++ u.role.getD "[Role]" ++ " | " ++
    u.access_level.getD "READ" ++ " | " ++ u.expiration.getD "PERMANENT" ++ " |"

/-- The rendered `FOLDER_POLICY.md` document (`create_folder_policy`, lines
252–337): filter the users, build the access rows (placeholder row when
empty), and substitute the metadata fields into the fixed markdown text.
`today` stands for `datetime.now().strftime("%Y-%m-%d")`. -/
def renderPolicy (investigationLabel studyLabel studyTitle sensitivityLevel :
    Option String) (authorizedUsers : List UserRec)
    (piName piEmail workpackage : Option String) (today : String) : String :=
  let filteredUsers := filterOwnersAndPis authorizedUsers
  let accessRows := filteredUsers.map accessRow
  let accessRows :=
    if accessRows = [] then
      ["| [Name] | [Role] | [READ/READ-WRITE] | [YYYY-MM-DD or PERMANENT] |"]
    else accessRows
  let invLabel := orDefault investigationLabel "[LABEL1]"
  let studyLab := orDefault studyLabel "[LABEL2]"
  "# FOLDER POLICY\n\n## Study Information\n- **Study Title**: " ++
    orDefault studyTitle "[Study Title]" ++
    "\n- **Investigation Label**: " ++ invLabel ++
    "\n- **Study Label**: " ++ studyLab ++
    "\n- **Workpackage**: " ++ orDefault workpackage "[Workpackage ID]" ++
    "\n- **Date Created**: " ++ today ++
    "\n- **Project Lead**: " ++ orDefault piName "[Name]" ++
    "\n- **Contact Email**: " ++ orDefault piEmail "[Email]" ++
    "\n\n## Data Sensitivity Classification\n**Current Sensitivity Level**: " ++
    orDefault sensitivityLevel
      "[SELECT ONE: PUBLIC / INTERNAL / CONFIDENTIAL / RESTRICTED]" ++
    "\n\n### Sensitivity Level Definitions\n" ++
    "- **PUBLIC**: Data that can be freely shared with the public.\n" ++
    "- **INTERNAL**: Data that can be shared within the organization (CropXR) but not externally.\n" ++
    "- **RESTRICTED**: Sensitive data with limited access even within the organization.\n" ++
    "- **CONFIDENTIAL**: Highly sensitive data with strictly controlled access and not listed in data catalogue.\n" ++
    "\n## Access Control\n\n### Access\n" ++
    "The following individuals or groups have READ-WRITE-SHARE access to this folder structure:\n\n" ++
    "| Name | Role | Access Level | Expiration Date |\n" ++
    "|------|------|--------------|-----------------|\n" ++
    String.intercalate "\n" accessRows ++
    "\n\n## Folder Naming Convention\n" ++
    "All folders within this project follow a strict naming convention:\n\n" ++
    "- All first-level folders are prefixed with: **" ++ invLabel ++ "-" ++ studyLab ++ "_**\n" ++
    "- Examples:\n" ++
    "  - Raw data folder: **" ++ invLabel ++ "-" ++ studyLab ++ "_raw**\n" ++
    "  - Processed data folder: **" ++ invLabel ++ "-" ++ studyLab ++ "_processed**\n" ++
    "  - Metadata folder: **" ++ invLabel ++ "-" ++ studyLab ++ "_metadata**\n" ++
    "  - Analysis folder: **" ++ invLabel ++ "-" ++ studyLab ++ "_analysis**\n" ++
    "  - Documentation folder: **" ++ invLabel ++ "-" ++ studyLab ++ "_documentation**\n" ++
    "\n## Data Handling Policies\n\n### Raw Data\n" ++
    "- Raw data must never be modified\n" ++
    "- All raw data files must be stored in the **" ++ invLabel ++ "-" ++ studyLab ++ "_raw** folder\n" ++
    "\n### Other Data Folders\n" ++
    "- All first-level folders follow the naming convention **" ++ invLabel ++ "-" ++ studyLab ++ "_[FOLDER_TYPE]**\n" ++
    "- Files within these folders should maintain consistent naming where applicable\n" ++
    "- Cross-references between folders should maintain traceability to original data sources\n" ++
    "\n## Metadata Guidelines\n" ++
    "- Metadata should be comprehensive and follow applicable standards\n" ++
    "- All metadata should be stored in the metadata folder\n" ++
    "- File naming should maintain consistency with data files\n" ++
    "\n## Questions and Support\n" ++
    "For questions regarding this policy or data management assistance, please contact:\n" ++
    "- Data Engineering Team: dataxr@cropxr.org\n\n"

/-- Model of `create_folder_policy` (lines 218–366).  `today` and `ts` stand
for the two `datetime.now()` format calls; `copyFails` and `writeFails`
model an I/O exception being raised by `shutil.copy2` resp. the
`open`/`write` — both are caught by the surrounding `try/except` blocks of
the source, so the function is total and always returns the intended policy
path alongside the new state. -/
def createFolderPolicy (fs : FS) (folderPath : Path)
    (investigationLabel studyLabel studyTitle sensitivityLevel : Option String)
    (authorizedUsers : List UserRec) (piName piEmail workpackage : Option String)
    (overwriteExisting : Bool) (today ts : String)
    (copyFails writeFails : Bool) : FS × Path :=
  let policyContent := renderPolicy investigationLabel studyLabel studyTitle
    sensitivityLevel authorizedUsers piName piEmail workpackage today
  let policyPath := folderPath ++ ["FOLDER_POLICY.md"]
  if (fsFind fs policyPath).isSome && !overwriteExisting then
    (fs, policyPath)
  else
    let backupPath := folderPath ++ ["FOLDER_POLICY.md.bak." ++ ts]
    let fs1 :=
      if (fsFind fs policyPath).isSome && overwriteExisting then
        if copyFails then fs else tryCopy2 fs policyPath backupPath
      else fs
    let fs2 :=
      if overwriteExisting || !(fsFind fs1 policyPath).isSome then
        if writeFails then fs1 else tryWrite fs1 policyPath policyContent
      else fs1
    (fs2, policyPath)

/-- The input record of `parse_users_from_study_json`: the study-JSON fields
the function reads. -/
structure StudyData where
  owners : List String
  contributors : List String
  readers : List String
  effective_principal_investigator_name : Option String
  effective_principal_investigator_email : Option String

/-- Python `s.rstrip(")")`: drop every trailing `)` character. -/
def rstripParen (s : String) : String :=
  String.mk ((s.data.reverse.dropWhile (fun c => c = ')')).reverse)

/-- Parse one `"Name (email)"`-or-bare-name entry the way each of the three
loops of `parse_users_from_study_json` does, with the given role and access
level. -/
def parsePerson (s role access : String) : UserRec :=
  if strHasChar s '(' && strEndsWith s ")" then
    let nameP := pyStrip ((strSplitChar '(' s).headD "")
    let emailP := pyStrip (rstripParen ((strSplitChar '(' s).getD 1 ""))
    ⟨some (nameP ++ " (" ++ emailP ++ ")"), some role, some access, some "PERMANENT"⟩
  else
    ⟨some s, some role, some access, some "PERMANENT"⟩

/-- Python `sub in s` (substring containment). -/
def strContains (s sub : String) : Bool :=
  decide (List.IsInfix sub.data s.data)

/-- Model of `parse_users_from_study_json` (lines 415–493): owners get
`READ-WRITE-SHARE`, contributors and readers get `READ`, and the principal
investigator is appended with `READ-WRITE-SHARE` unless a case-insensitive
substring match finds the display name among the already-added names. -/
def parseUsersFromStudyJson (studyData : StudyData) : List UserRec :=
  let users := studyData.owners.map (fun o => parsePerson o "Owner" "READ-WRITE-SHARE")
  let users := users ++ studyData.contributors.map (fun c => parsePerson c "Contributor" "READ")
  let users := users ++ studyData.readers.map (fun r => parsePerson r "Reader" "READ")
  match studyData.effective_principal_investigator_name with
  | none => users
  | some piName =>
    if piName = "" then users
    else
      let piDisplayName :=
        if truthy studyData.effective_principal_investigator_email then
          piName ++ " (" ++ pyStr studyData.effective_principal_investigator_email ++ ")"
        else piName
      let piAlreadyAdded :=
        users.any (fun u =>
          strContains (strLower (u.name.getD "")) (strLower piDisplayName))
      if piAlreadyAdded then users
      else users ++
        [⟨some piDisplayName, some "Principal Investigator",
          some "READ-WRITE-SHARE", some "PERMANENT"⟩]

/-- Model of `os.path.join(p, s)` for a relative name `s` that may itself
contain `/` separators (absolute right-hand operands are not modelled). -/
def joinStr (p : Path) (s : String) : Path :=
  p ++ strSplitSlash s

/-- The two kinds of exception `create_folder_structure` raises itself:
`FileNotFoundError` for a missing target directory and `ValueError` for an
insufficient configuration. -/
inductive PyError where
  | fileNotFound : PyError
  | valueError : PyError
deriving DecidableEq, Repr

/-- The arguments of `create_folder_structure`, in source order.  Optional
string arguments keep Python's `None` as `Option.none`. -/
structure CfsArgs where
  targetPath : Path
  folderName : Option String
  investigationLabel : Option String
  studyLabel : Option String
  studyTitle : Option String
  studySlug : Option String
  sensitivityLevel : Option String
  authorizedUsers : Option (List UserRec)
  piName : Option String
  piEmail : Option String
  workpackage : Option String
  structVal : Option (List (String × StructVal))
  overwriteExisting : Bool
  createInvestigationFolder : Bool

/-- The structure after defaulting (lines 146–152) and first-level
relabelling (lines 154–163); it depends only on the arguments. -/
def resolvedStruct (args : CfsArgs) : List (String × StructVal) :=
  let struct0 := args.structVal.getD
    [("raw", StructVal.null), ("processed", StructVal.null), ("metadata", StructVal.null)]
  if truthy args.investigationLabel && truthy args.studyLabel then
    relabelStruct (pyStr args.investigationLabel) (pyStr args.studyLabel) struct0
  else struct0

/-- The `create_folder_policy` call of `create_folder_structure`
(lines 200–213), with no injected I/O failures. -/
def policyStep (args : CfsArgs) (today ts : String) (fs : FS) (mainPath : Path) :
    FS :=
  (createFolderPolicy fs mainPath args.investigationLabel
    args.studyLabel args.studyTitle args.sensitivityLevel
    (args.authorizedUsers.getD []) args.piName args.piEmail args.workpackage
    args.overwriteExisting today ts false false).1

/-- The tail of `create_folder_structure` once `main_folder_path` is known
(lines 135–215): guarded creation of the main folder, `create_subfolders`
on the resolved structure, and `create_folder_policy`. -/
def afterMain (args : CfsArgs) (today ts : String) (fs : FS) (mainPath : Path) :
    FS × Except PyError Path :=
  let fs1 := if fsExists fs mainPath then fs else mkdirs fs mainPath
  let fs2 := createSubfoldersMap (resolvedStruct args) mainPath fs1
  (policyStep args today ts fs2 mainPath, Except.ok mainPath)

/-- Model of `create_folder_structure` (lines 10–215).  `today` and `ts`
stand for the `datetime.now()` calls reaching `create_folder_policy`; a
raised exception is returned as `Except.error` together with the state at
the raise point. -/
def createFolderStructure (args : CfsArgs) (today ts : String) (fs : FS) :
    FS × Except PyError Path :=
  if !(fsExists fs args.targetPath) then
    (fs, Except.error PyError.fileNotFound)
  else
    match args.folderName with
    | none =>
      if !(truthy args.investigationLabel && truthy args.studyLabel &&
          truthy args.studySlug) then
        (fs, Except.error PyError.valueError)
      else if !(truthy args.workpackage) then
        (fs, Except.error PyError.valueError)
      else
        let studyFolder := "s_" ++ pyStr args.workpackage ++ "-" ++
          pyStr args.investigationLabel ++ "-" ++ pyStr args.studyLabel ++ "_" ++
          pyStr args.studySlug
        if args.createInvestigationFolder then
          let investigationFolder :=
            "i_" ++ pyStr args.workpackage ++ "_" ++ pyStr args.investigationLabel
          let investigationPath := args.targetPath ++ [investigationFolder]
          let fs1 := if fsExists fs investigationPath then fs
            else mkdirs fs investigationPath
          afterMain args today ts fs1 (investigationPath ++ [studyFolder])
        else
          afterMain args today ts fs (args.targetPath ++ [studyFolder])
    | some fn =>
      if args.createInvestigationFolder then
        if strStartsWith fn "i_" && strHasChar fn '/' then
          afterMain args today ts fs (joinStr args.targetPath fn)
        else if !(truthy args.workpackage && truthy args.investigationLabel) then
          (fs, Except.error PyError.valueError)
        else
          let investigationFolder :=
            "i_" ++ pyStr args.workpackage ++ "_" ++ pyStr args.investigationLabel
          let investigationPath := args.targetPath ++ [investigationFolder]
          let fs1 := if fsExists fs investigationPath then fs
            else mkdirs fs investigationPath
          afterMain args today ts fs1 (joinStr investigationPath fn)
      else
        if strHasChar fn '/' && strStartsWith fn "i_" then
          let studyFolderName := (strSplitSlash fn).getLastD ""
          if strStartsWith studyFolderName ("s_" ++ pyStr args.workpackage ++ "-") then
            afterMain args today ts fs (args.targetPath ++ [studyFolderName])
          else if !(truthy args.workpackage && truthy args.investigationLabel &&
              truthy args.studyLabel && truthy args.studySlug) then
            (fs, Except.error PyError.valueError)
          else
            afterMain args today ts fs (args.targetPath ++
              ["s_" ++ pyStr args.workpackage ++ "-" ++
                pyStr args.investigationLabel ++ "-" ++ pyStr args.studyLabel ++
                "_" ++ pyStr args.studySlug])
        else
          afterMain args today ts fs (joinStr args.targetPath fn)

/-- Python `str` coercion of a `StructVal` as `file.write` receives it; the
claims only exercise the string case (a non-string argument would raise
`TypeError` in Python). -/
def stringOf : StructVal → String
  | StructVal.str s => s
  | _ => ""

/-- First binding for a key in a structure mapping (Python `dict` lookup —
keys are unique in a parsed YAML mapping). -/
def assocFind (entries : List (String × StructVal)) (k : String) :
    Option StructVal :=
  match entries with
  | [] => none
  | (k1, v) :: rest => if k1 = k then some v else assocFind rest k

theorem sizeOf_filter_le {a : Type} [SizeOf a] (p : a → Bool) :
    ∀ l : List a, sizeOf (List.filter p l) ≤ sizeOf l := by
  intro l
  induction l with
  | nil => simp [List.filter]
  | cons x xs ih =>
    simp only [List.filter]
    cases p x <;> simp <;> omega

mutual

/-- The item loop of `ISADirectoryCreator.create_directory_structure`
(lines 110–152). -/
def cdsEntries (entries : List (String × StructVal)) (basePath : Path)
    (fs : FS) : FS :=
  match entries with
  | [] => fs
  | (key, value) :: rest =>
    cdsEntries rest basePath (cdsStep key value basePath fs)
termination_by sizeOf entries
decreasing_by
  all_goals simp_wf
  all_goals omega

/-- One iteration of the item loop: a mapping value creates a directory,
writes `README.md` from a `_readme` child if one is present and recurses
into the mapping without `_readme`; a string value writes a file when the
key contains a `.` and otherwise creates a directory with a `README.md`
holding the string; `None` creates an empty directory.  The unguarded
Python `open(..., "w")` calls are modelled as unconditional writes (Python
instead raises if a directory occupies that path — theorems about this
function exclude such situations by hypothesis). -/
def cdsStep (key : String) (value : StructVal) (basePath : Path) (fs : FS) :
    FS :=
  let currentPath := basePath ++ [key]
  match value with
  | StructVal.map sub =>
    let fs2 := mkdirs fs currentPath
    match assocFind sub "_readme" with
    | some rv =>
      let fs3 := writeFile fs2 (currentPath ++ ["README.md"]) (stringOf rv)
      cdsEntries (sub.filter (fun kv => kv.1 ≠ "_readme")) currentPath fs3
    | none => cdsEntries sub currentPath fs2
  | StructVal.str sv =>
    if strHasChar key '.' then writeFile fs currentPath sv
    else
      let fs2 := mkdirs fs currentPath
      writeFile fs2 (currentPath ++ ["README.md"]) sv
  | StructVal.null => mkdirs fs currentPath
  | StructVal.list _ => fs
termination_by sizeOf value
decreasing_by
  all_goals simp_wf
  all_goals
    have h := sizeOf_filter_le
      (fun kv : String × StructVal => !decide (kv.1 = "_readme")) sub
  all_goals omega

end

/-- Model of `ISADirectoryCreator.create_directory_structure(base, struct)`
(lines 98–152): create the base directory, then process each item. -/
def createDirectoryStructure (basePath : Path)
    (entries : List (String × StructVal)) (fs : FS) : FS :=
  cdsEntries entries basePath (mkdirs fs basePath)

/-- `MalformedName` failure conditions of the inverse name parser (spec
§4.1 / §7). -/
inductive MalformedName where
  | wrongSegmentCount : MalformedName
  | missingPre : MalformedName
  | missingSeparator : MalformedName
  | labelMismatch : MalformedName
deriving DecidableEq, Repr

/-- Modelled from the spec: the repository no longer contains the
NameBuilder's canonical builder as a standalone function (the tests refer to
a removed `extract_labels_from_folder_name`); this follows §4.1's pattern
`i_<workpackage>_<investigation_label>/s_<investigation_label>-<study_label>_<slug>`
over explicit character lists. -/
def buildCanonicalName (wp inv st slug : List Char) : List Char :=
  'i' :: '_' :: wp ++ '_' :: inv ++ '/' :: 's' :: '_' :: inv ++ '-' :: st ++ '_' :: slug

/-- Split a character list at the first occurrence of `c`, or fail. -/
def splitFirst (c : Char) : List Char → Option (List Char × List Char)
  | [] => none
  | x :: xs =>
    if x = c then some ([], xs)
    else (splitFirst c xs).map (fun ab => (x :: ab.1, ab.2))

/-- Validation of the second canonical segment
(`s_<investigation_label>-<study_label>_<slug>`) given the workpackage and
investigation label recovered from the first. -/
def parseSeg2 (wp inv1 : List Char) : List Char →
    Except MalformedName (List Char × List Char × List Char)
  | d1 :: d2 :: rest2 =>
    if d1 = 's' ∧ d2 = '_' then
      match splitFirst '_' rest2 with
      | some (labels, _slug) =>
        match splitFirst '-' labels with
        | some (inv2, st) =>
          if inv1 = inv2 then Except.ok (wp, inv1, st)
          else Except.error MalformedName.labelMismatch
        | none => Except.error MalformedName.missingSeparator
      | none => Except.error MalformedName.missingSeparator
    else Except.error MalformedName.missingPre
  | _ => Except.error MalformedName.missingPre

/-- Validation of the two canonical segments: the first must be
`i_<workpackage>_<investigation_label>`, the second is checked by
`parseSeg2`. -/
def parseSegments : List Char → List Char →
    Except MalformedName (List Char × List Char × List Char)
  | c1 :: c2 :: rest1, seg2 =>
    if c1 = 'i' ∧ c2 = '_' then
      match splitFirst '_' rest1 with
      | some (wp, inv1) => parseSeg2 wp inv1 seg2
      | none => Except.error MalformedName.missingSeparator
    else Except.error MalformedName.missingPre
  | _, _ => Except.error MalformedName.missingPre

/-- Modelled from the spec: the companion inverse parser of §4.1, absent
from `src/` (only referenced by the repository's tests, which mention a
removed `extract_labels_from_folder_name`).  It recovers
`(workpackage, investigation_label, study_label)` from a canonical
two-segment name and fails with a `MalformedName` condition on a wrong
segment count, missing `i_`/`s_` markers, missing separators, or a
mismatched investigation label between the two segments. -/
def parseCanonicalName (input : List Char) :
    Except MalformedName (List Char × List Char × List Char) :=
  match splitOnChar '/' input with
  | [seg1, seg2] => parseSegments seg1 seg2
  | _ => Except.error MalformedName.wrongSegmentCount

/-- A label is valid for canonical names when it is nonempty and free of the
three separator characters (spec §4.1: labels such as `WP1`, `CXR9`). -/
def validLabel (s : List Char) : Prop :=
  s ≠ [] ∧ '_' ∉ s ∧ '-' ∉ s ∧ '/' ∉ s

instance (s : List Char) : Decidable (validLabel s) := by
  unfold validLabel; infer_instance

/-- A slug is valid when nonempty and free of `_` and `/` (it may contain
hyphens, spec §4.1). -/
def validSlug (s : List Char) : Prop :=
  s ≠ [] ∧ '_' ∉ s ∧ '/' ∉ s

instance (s : List Char) : Decidable (validSlug s) := by
  unfold validSlug; infer_instance

/-! ### Basic lemmas about the filesystem primitives -/

theorem filterOwnersAndPis_eq_filter (users : List UserRec) :
    filterOwnersAndPis users = users.filter isPrivileged := by
  have h : ∀ (l : List UserRec) (acc : List UserRec),
      l.foldl (fun acc u => if isPrivileged u then acc ++ [u] else acc) acc =
        acc ++ l.filter isPrivileged := by
    intro l
    induction l with
    | nil => intro acc; simp
    | cons x xs ih =>
      intro acc
      by_cases hx : isPrivileged x
      · simp [List.foldl, hx, ih, List.filter]
      · simp [List.foldl, hx, ih, List.filter]
  simpa using h users []

theorem fsFind_setIfAbsent_of_some {fs : FS} {p : Path} {e : Entry} (q : Path)
    (h : fsFind fs p = some e) : fsFind (setIfAbsent fs q) p = some e := by
  unfold setIfAbsent
  split
  · exact h
  · simp only [fsFind]
    split
    · rename_i hqp
      subst hqp
      simp_all
    · exact h

theorem fsFind_foldl_setIfAbsent_of_some {l : List Path} {fs : FS} {p : Path}
    {e : Entry} (h : fsFind fs p = some e) :
    fsFind (l.foldl setIfAbsent fs) p = some e := by
  induction l generalizing fs with
  | nil => exact h
  | cons q rest ih => exact ih (fsFind_setIfAbsent_of_some q h)

theorem fsFind_mkdirs_of_some {fs : FS} {p q : Path} {e : Entry}
    (h : fsFind fs p = some e) : fsFind (mkdirs fs q) p = some e :=
  fsFind_foldl_setIfAbsent_of_some h

theorem isSome_setIfAbsent {fs : FS} {p : Path} (q : Path)
    (h : (fsFind fs p).isSome) : (fsFind (setIfAbsent fs q) p).isSome := by
  rcases Option.isSome_iff_exists.mp h with ⟨e, he⟩
  rw [fsFind_setIfAbsent_of_some q he]
  rfl

theorem isSome_mkdirs {fs : FS} {p q : Path} (h : (fsFind fs p).isSome) :
    (fsFind (mkdirs fs q) p).isSome := by
  rcases Option.isSome_iff_exists.mp h with ⟨e, he⟩
  rw [fsFind_mkdirs_of_some he]
  rfl

theorem isSome_setIfAbsent_self (fs : FS) (p : Path) :
    (fsFind (setIfAbsent fs p) p).isSome := by
  unfold setIfAbsent
  split
  · assumption
  · simp [fsFind]

theorem isSome_foldl_setIfAbsent_of_mem {l : List Path} {p : Path}
    (hp : p ∈ l) (fs : FS) : (fsFind (l.foldl setIfAbsent fs) p).isSome := by
  induction l generalizing fs with
  | nil => cases hp
  | cons q rest ih =>
    rcases List.mem_cons.mp hp with hq | hrest
    · subst hq
      simp only [List.foldl]
      rcases Option.isSome_iff_exists.mp (isSome_setIfAbsent_self fs p) with ⟨e, he⟩
      rw [fsFind_foldl_setIfAbsent_of_some he]
      rfl
    · exact ih hrest _

theorem isSome_mkdirs_self {p : Path} (hp : p ≠ []) (fs : FS) :
    (fsFind (mkdirs fs p) p).isSome := by
  unfold mkdirs
  apply isSome_foldl_setIfAbsent_of_mem
  unfold ancestorsOf
  have hlen : 0 < p.length := List.length_pos.mpr hp
  refine List.mem_map.mpr ⟨p.length - 1, ?_, ?_⟩
  · exact List.mem_range.mpr (by omega)
  · have : p.length - 1 + 1 = p.length := by omega
    rw [this, List.take_length]

theorem isDir_setIfAbsent_of_isDir {fs : FS} {p : Path} (q : Path)
    (h : isDir fs p) : isDir (setIfAbsent fs q) p :=
  fsFind_setIfAbsent_of_some q h

theorem isDir_mkdirs_of_isDir {fs : FS} {p q : Path} (h : isDir fs p) :
    isDir (mkdirs fs q) p :=
  fsFind_mkdirs_of_some h

theorem fsFind_writeFile_self (fs : FS) (p : Path) (c : String) :
    fsFind (writeFile fs p c) p = some (Entry.file c) := by
  simp [writeFile, fsFind]

theorem fsFind_writeFile_of_ne {p q : Path} (hne : p ≠ q) (fs : FS)
    (c : String) : fsFind (writeFile fs q c) p = fsFind fs p := by
  simp only [writeFile, fsFind]
  split
  · rename_i hqp
    exact absurd hqp.symm hne
  · rfl

theorem fsFind_tryWrite_of_ne {p q : Path} (hne : p ≠ q) (fs : FS)
    (c : String) : fsFind (tryWrite fs q c) p = fsFind fs p := by
  unfold tryWrite
  split
  · split
    · rfl
    · exact fsFind_writeFile_of_ne hne fs c
  · rfl

theorem getLastD_append_single (p : Path) (x d : String) :
    (p ++ [x]).getLastD d = x := by
  induction p generalizing d with
  | nil => rfl
  | cons a as ih =>
    simp only [List.cons_append, List.getLastD_cons]
    exact ih a

theorem fsFind_tryCopy2_of_ne {p src dst : Path} (hne : p ≠ dst)
    (hne2 : p ≠ dst ++ [src.getLastD ""]) (fs : FS) :
    fsFind (tryCopy2 fs src dst) p = fsFind fs p := by
  unfold tryCopy2
  split
  · split
    · split
      · rfl
      · exact fsFind_writeFile_of_ne hne2 fs _
    · exact fsFind_writeFile_of_ne hne fs _
  · rfl

theorem isDir_tryWrite_iff (fs : FS) (q p : Path) (c : String) :
    isDir (tryWrite fs q c) p ↔ isDir fs p := by
  unfold tryWrite
  split
  · rename_i hpar
    split
    · exact Iff.rfl
    · rename_i hq
      by_cases hpq : p = q
      · subst hpq
        unfold isDir
        rw [fsFind_writeFile_self]
        constructor
        · intro hcontr
          cases hcontr
        · intro hdir
          exact absurd hdir hq
      · unfold isDir
        rw [fsFind_writeFile_of_ne hpq]
  · exact Iff.rfl

theorem isDir_tryCopy2_iff (fs : FS) (src dst p : Path) :
    isDir (tryCopy2 fs src dst) p ↔ isDir fs p := by
  unfold tryCopy2
  split
  · split
    · split
      · exact Iff.rfl
      · rename_i hdst1
        by_cases hpd : p = dst ++ [src.getLastD ""]
        · subst hpd
          unfold isDir
          rw [fsFind_writeFile_self]
          constructor
          · intro hcontr
            cases hcontr
          · intro hdir
            exact absurd hdir hdst1
        · unfold isDir
          rw [fsFind_writeFile_of_ne hpd]
    · rename_i hdst
      by_cases hpd : p = dst
      · subst hpd
        unfold isDir
        rw [fsFind_writeFile_self]
        constructor
        · intro hcontr
          cases hcontr
        · intro hdir
          exact absurd hdir hdst
      · unfold isDir
        rw [fsFind_writeFile_of_ne hpd]
  · exact Iff.rfl

/-! ### Lemmas about `create_subfolders` (the directory-only materializer) -/

mutual

/-- The guarded directory-creation targets of `create_subfolders`, in
creation order. -/
def structNodePaths (v : StructVal) (parent : Path) : List Path :=
  match v with
  | StructVal.null => []
  | StructVal.str _ => []
  | StructVal.list names => names.map (fun n => parent ++ [n])
  | StructVal.map entries => structNodePathsMap entries parent

/-- `structNodePaths` for a mapping node's entry list. -/
def structNodePathsMap (entries : List (String × StructVal)) (parent : Path) :
    List Path :=
  match entries with
  | [] => []
  | (k, sub) :: rest =>
    (parent ++ [k]) :: structNodePaths sub (parent ++ [k]) ++
      structNodePathsMap rest parent

end

theorem foldl_guarded_preserve {parent : Path} {names : List String} {fs : FS}
    {p : Path} {e : Entry} (h : fsFind fs p = some e) :
    fsFind
      (names.foldl
        (fun acc n =>
          if fsExists acc (parent ++ [n]) then acc else mkdirs acc (parent ++ [n]))
        fs) p = some e := by
  induction names generalizing fs with
  | nil => exact h
  | cons n rest ih =>
    simp only [List.foldl]
    split
    · exact ih h
    · exact ih (fsFind_mkdirs_of_some h)

mutual

theorem createSubfolders_preserve (v : StructVal) (parent : Path) (fs : FS)
    (p : Path) (e : Entry) (h : fsFind fs p = some e) :
    fsFind (createSubfolders v parent fs) p = some e := by
  cases v with
  | null => simpa [createSubfolders] using h
  | str s => simpa [createSubfolders] using h
  | list names =>
    simp only [createSubfolders]
    exact foldl_guarded_preserve h
  | map entries =>
    simp only [createSubfolders]
    exact createSubfoldersMap_preserve entries parent fs p e h

theorem createSubfoldersMap_preserve (entries : List (String × StructVal))
    (parent : Path) (fs : FS) (p : Path) (e : Entry)
    (h : fsFind fs p = some e) :
    fsFind (createSubfoldersMap entries parent fs) p = some e := by
  match entries with
  | [] => simpa [createSubfoldersMap] using h
  | (k, sub) :: rest =>
    simp only [createSubfoldersMap]
    have h1 : fsFind (if fsExists fs (parent ++ [k]) then fs
        else mkdirs fs (parent ++ [k])) p = some e := by
      split
      · exact h
      · exact fsFind_mkdirs_of_some h
    have h2 := createSubfolders_preserve sub (parent ++ [k]) _ p e h1
    exact createSubfoldersMap_preserve rest parent _ p e h2

end

theorem foldl_guarded_preserve_isSome {parent : Path} {names : List String}
    {fs : FS} {p : Path} (h : (fsFind fs p).isSome) :
    (fsFind
      (names.foldl
        (fun acc n =>
          if fsExists acc (parent ++ [n]) then acc else mkdirs acc (parent ++ [n]))
        fs) p).isSome := by
  rcases Option.isSome_iff_exists.mp h with ⟨e, he⟩
  rw [foldl_guarded_preserve he]
  rfl

theorem createSubfolders_preserve_isSome (v : StructVal) (parent : Path)
    (fs : FS) (p : Path) (h : (fsFind fs p).isSome) :
    (fsFind (createSubfolders v parent fs) p).isSome := by
  rcases Option.isSome_iff_exists.mp h with ⟨e, he⟩
  rw [createSubfolders_preserve v parent fs p e he]
  rfl

theorem createSubfoldersMap_preserve_isSome (entries : List (String × StructVal))
    (parent : Path) (fs : FS) (p : Path) (h : (fsFind fs p).isSome) :
    (fsFind (createSubfoldersMap entries parent fs) p).isSome := by
  rcases Option.isSome_iff_exists.mp h with ⟨e, he⟩
  rw [createSubfoldersMap_preserve entries parent fs p e he]
  rfl

theorem foldl_guarded_fixpoint {parent : Path} {names : List String} {fs : FS}
    (h : ∀ n ∈ names, (fsFind fs (parent ++ [n])).isSome) :
    names.foldl
      (fun acc n =>
        if fsExists acc (parent ++ [n]) then acc else mkdirs acc (parent ++ [n]))
      fs = fs := by
  induction names with
  | nil => rfl
  | cons n rest ih =>
    simp only [List.foldl]
    rw [if_pos]
    · exact ih (fun m hm => h m (List.mem_cons_of_mem n hm))
    · exact h n (List.mem_cons_self n rest)

mutual

theorem createSubfolders_fixpoint (v : StructVal) (parent : Path) (fs : FS)
    (h : ∀ q ∈ structNodePaths v parent, (fsFind fs q).isSome) :
    createSubfolders v parent fs = fs := by
  cases v with
  | null => simp [createSubfolders]
  | str s => simp [createSubfolders]
  | list names =>
    simp only [createSubfolders]
    exact foldl_guarded_fixpoint (fun n hn => by
      apply h
      simp only [structNodePaths]
      exact List.mem_map_of_mem _ hn)
  | map entries =>
    simp only [createSubfolders]
    exact createSubfoldersMap_fixpoint entries parent fs (fun q hq => by
      apply h
      simpa [structNodePaths] using hq)

theorem createSubfoldersMap_fixpoint (entries : List (String × StructVal))
    (parent : Path) (fs : FS)
    (h : ∀ q ∈ structNodePathsMap entries parent, (fsFind fs q).isSome) :
    createSubfoldersMap entries parent fs = fs := by
  match entries with
  | [] => simp [createSubfoldersMap]
  | (k, sub) :: rest =>
    have hk : (fsFind fs (parent ++ [k])).isSome := by
      apply h
      simp [structNodePathsMap]
    have hsub : ∀ q ∈ structNodePaths sub (parent ++ [k]), (fsFind fs q).isSome := by
      intro q hq
      apply h
      simp only [structNodePathsMap, List.mem_cons, List.mem_append]
      tauto
    have hrest : ∀ q ∈ structNodePathsMap rest parent, (fsFind fs q).isSome := by
      intro q hq
      apply h
      simp only [structNodePathsMap, List.mem_cons, List.mem_append]
      tauto
    simp only [createSubfoldersMap]
    rw [if_pos (by simpa [fsExists] using hk)]
    rw [createSubfolders_fixpoint sub (parent ++ [k]) fs hsub]
    exact createSubfoldersMap_fixpoint rest parent fs hrest

end

theorem foldl_guarded_covers {parent : Path} {names : List String} (fs : FS) :
    ∀ n ∈ names,
      (fsFind
        (names.foldl
          (fun acc m =>
            if fsExists acc (parent ++ [m]) then acc else mkdirs acc (parent ++ [m]))
          fs) (parent ++ [n])).isSome := by
  induction names generalizing fs with
  | nil => intro n hn; cases hn
  | cons m rest ih =>
    intro n hn
    rcases List.mem_cons.mp hn with hm | hrest
    · subst hm
      simp only [List.foldl]
      apply foldl_guarded_preserve_isSome
      split
      · rename_i hex
        simpa [fsExists] using hex
      · exact isSome_mkdirs_self (by simp) fs
    · exact ih _ n hrest

mutual

theorem createSubfolders_covers (v : StructVal) (parent : Path) (fs : FS) :
    ∀ q ∈ structNodePaths v parent,
      (fsFind (createSubfolders v parent fs) q).isSome := by
  cases v with
  | null => intro q hq; simp [structNodePaths] at hq
  | str s => intro q hq; simp [structNodePaths] at hq
  | list names =>
    intro q hq
    simp only [structNodePaths, List.mem_map] at hq
    rcases hq with ⟨n, hn, rfl⟩
    simp only [createSubfolders]
    exact foldl_guarded_covers fs n hn
  | map entries =>
    intro q hq
    simp only [structNodePaths] at hq
    simp only [createSubfolders]
    exact createSubfoldersMap_covers entries parent fs q hq

theorem createSubfoldersMap_covers (entries : List (String × StructVal))
    (parent : Path) (fs : FS) :
    ∀ q ∈ structNodePathsMap entries parent,
      (fsFind (createSubfoldersMap entries parent fs) q).isSome := by
  match entries with
  | [] => intro q hq; simp [structNodePathsMap] at hq
  | (k, sub) :: rest =>
    intro q hq
    simp only [structNodePathsMap, List.mem_cons, List.mem_append] at hq
    simp only [createSubfoldersMap]
    rcases hq with (hqk | hqsub) | hqrest
    · subst hqk
      apply createSubfoldersMap_preserve_isSome
      apply createSubfolders_preserve_isSome
      split
      · rename_i hex
        simpa [fsExists] using hex
      · exact isSome_mkdirs_self (by simp) fs
    · apply createSubfoldersMap_preserve_isSome
      exact createSubfolders_covers sub (parent ++ [k]) _ q hqsub
    · exact createSubfoldersMap_covers rest parent _ q hqrest

end

/-! ### Lemmas about `create_folder_policy` -/

theorem isSome_tryWrite {fs : FS} {p : Path} (q : Path) (c : String)
    (h : (fsFind fs p).isSome) : (fsFind (tryWrite fs q c) p).isSome := by
  unfold tryWrite
  split
  · split
    · exact h
    · by_cases hpq : p = q
      · subst hpq
        rw [fsFind_writeFile_self]
        rfl
      · rw [fsFind_writeFile_of_ne hpq]
        exact h
  · exact h

theorem isSome_tryCopy2 {fs : FS} {p : Path} (src dst : Path)
    (h : (fsFind fs p).isSome) : (fsFind (tryCopy2 fs src dst) p).isSome := by
  unfold tryCopy2
  split
  · split
    · split
      · exact h
      · by_cases hpd : p = dst ++ [src.getLastD ""]
        · subst hpd
          rw [fsFind_writeFile_self]
          rfl
        · rw [fsFind_writeFile_of_ne hpd]
          exact h
    · by_cases hpd : p = dst
      · subst hpd
        rw [fsFind_writeFile_self]
        rfl
      · rw [fsFind_writeFile_of_ne hpd]
        exact h
  · exact h

theorem file_tryWrite {fs : FS} {p : Path} {c : String} (q : Path) (d : String)
    (h : fsFind fs p = some (Entry.file c)) :
    ∃ c2, fsFind (tryWrite fs q d) p = some (Entry.file c2) := by
  unfold tryWrite
  split
  · split
    · exact ⟨c, h⟩
    · by_cases hpq : p = q
      · subst hpq
        exact ⟨d, fsFind_writeFile_self fs p d⟩
      · rw [fsFind_writeFile_of_ne hpq]
        exact ⟨c, h⟩
  · exact ⟨c, h⟩

theorem file_tryCopy2 {fs : FS} {p : Path} {c : String} (src dst : Path)
    (h : fsFind fs p = some (Entry.file c)) :
    ∃ c2, fsFind (tryCopy2 fs src dst) p = some (Entry.file c2) := by
  unfold tryCopy2
  split
  · rename_i csrc hsrc
    split
    · split
      · exact ⟨c, h⟩
      · by_cases hpd : p = dst ++ [src.getLastD ""]
        · subst hpd
          exact ⟨csrc, fsFind_writeFile_self fs _ csrc⟩
        · rw [fsFind_writeFile_of_ne hpd]
          exact ⟨c, h⟩
    · by_cases hpd : p = dst
      · subst hpd
        exact ⟨csrc, fsFind_writeFile_self fs p csrc⟩
      · rw [fsFind_writeFile_of_ne hpd]
        exact ⟨c, h⟩
  · exact ⟨c, h⟩

theorem cfp_shape (fs : FS) (folderPath : Path)
    (investigationLabel studyLabel studyTitle sensitivityLevel : Option String)
    (authorizedUsers : List UserRec) (piName piEmail workpackage : Option String)
    (overwriteExisting : Bool) (today ts : String) (copyFails writeFails : Bool) :
    (createFolderPolicy fs folderPath investigationLabel studyLabel studyTitle
      sensitivityLevel authorizedUsers piName piEmail workpackage
      overwriteExisting today ts copyFails writeFails).2 =
      folderPath ++ ["FOLDER_POLICY.md"] ∧
    ∃ fsmid : FS,
      (fsmid = fs ∨
        fsmid = tryCopy2 fs (folderPath ++ ["FOLDER_POLICY.md"])
          (folderPath ++ ["FOLDER_POLICY.md.bak." ++ ts])) ∧
      ((createFolderPolicy fs folderPath investigationLabel studyLabel studyTitle
          sensitivityLevel authorizedUsers piName piEmail workpackage
          overwriteExisting today ts copyFails writeFails).1 = fsmid ∨
        (createFolderPolicy fs folderPath investigationLabel studyLabel studyTitle
          sensitivityLevel authorizedUsers piName piEmail workpackage
          overwriteExisting today ts copyFails writeFails).1 =
          tryWrite fsmid (folderPath ++ ["FOLDER_POLICY.md"])
            (renderPolicy investigationLabel studyLabel studyTitle
              sensitivityLevel authorizedUsers piName piEmail workpackage today)) := by
  simp only [createFolderPolicy]
  by_cases h1 : ((fsFind fs (folderPath ++ ["FOLDER_POLICY.md"])).isSome &&
      !overwriteExisting) = true
  · rw [if_pos h1]
    exact ⟨rfl, fs, Or.inl rfl, Or.inl rfl⟩
  · rw [if_neg h1]
    refine ⟨rfl, ?_⟩
    by_cases h2 : ((fsFind fs (folderPath ++ ["FOLDER_POLICY.md"])).isSome &&
        overwriteExisting) = true
    · rw [if_pos h2]
      by_cases hc : copyFails = true
      · rw [if_pos hc]
        refine ⟨fs, Or.inl rfl, ?_⟩
        split
        · split
          · exact Or.inl rfl
          · exact Or.inr rfl
        · exact Or.inl rfl
      · rw [if_neg hc]
        refine ⟨_, Or.inr rfl, ?_⟩
        split
        · split
          · exact Or.inl rfl
          · exact Or.inr rfl
        · exact Or.inl rfl
    · rw [if_neg h2]
      refine ⟨fs, Or.inl rfl, ?_⟩
      split
      · split
        · exact Or.inl rfl
        · exact Or.inr rfl
      · exact Or.inl rfl

theorem cfp_snd (fs : FS) (folderPath : Path)
    (investigationLabel studyLabel studyTitle sensitivityLevel : Option String)
    (authorizedUsers : List UserRec) (piName piEmail workpackage : Option String)
    (overwriteExisting : Bool) (today ts : String) (copyFails writeFails : Bool) :
    (createFolderPolicy fs folderPath investigationLabel studyLabel studyTitle
      sensitivityLevel authorizedUsers piName piEmail workpackage
      overwriteExisting today ts copyFails writeFails).2 =
      folderPath ++ ["FOLDER_POLICY.md"] :=
  (cfp_shape fs folderPath investigationLabel studyLabel studyTitle
    sensitivityLevel authorizedUsers piName piEmail workpackage
    overwriteExisting today ts copyFails writeFails).1

theorem cfp_preserve {fs : FS} {p : Path} {e : Entry} {folderPath : Path}
    {investigationLabel studyLabel studyTitle sensitivityLevel : Option String}
    {authorizedUsers : List UserRec} {piName piEmail workpackage : Option String}
    {overwriteExisting : Bool} {today ts : String} {copyFails writeFails : Bool}
    (h : fsFind fs p = some e)
    (hp : p ≠ folderPath ++ ["FOLDER_POLICY.md"])
    (hb : p ≠ folderPath ++ ["FOLDER_POLICY.md.bak." ++ ts])
    (hbp : p ≠ folderPath ++ ["FOLDER_POLICY.md.bak." ++ ts,
      "FOLDER_POLICY.md"]) :
    fsFind (createFolderPolicy fs folderPath investigationLabel studyLabel
      studyTitle sensitivityLevel authorizedUsers piName piEmail workpackage
      overwriteExisting today ts copyFails writeFails).1 p = some e := by
  rcases (cfp_shape fs folderPath investigationLabel studyLabel studyTitle
      sensitivityLevel authorizedUsers piName piEmail workpackage
      overwriteExisting today ts copyFails writeFails).2 with
    ⟨fsmid, hmid, hfin⟩
  have hmide : fsFind fsmid p = some e := by
    rcases hmid with rfl | rfl
    · exact h
    · rw [fsFind_tryCopy2_of_ne hb
        (by rw [getLastD_append_single, List.append_assoc]; exact hbp)]
      exact h
  rcases hfin with hfin | hfin <;> rw [hfin]
  · exact hmide
  · rw [fsFind_tryWrite_of_ne hp]
    exact hmide

theorem cfp_isSome {fs : FS} {p : Path} {folderPath : Path}
    {investigationLabel studyLabel studyTitle sensitivityLevel : Option String}
    {authorizedUsers : List UserRec} {piName piEmail workpackage : Option String}
    {overwriteExisting : Bool} {today ts : String} {copyFails writeFails : Bool}
    (h : (fsFind fs p).isSome) :
    (fsFind (createFolderPolicy fs folderPath investigationLabel studyLabel
      studyTitle sensitivityLevel authorizedUsers piName piEmail workpackage
      overwriteExisting today ts copyFails writeFails).1 p).isSome := by
  rcases (cfp_shape fs folderPath investigationLabel studyLabel studyTitle
      sensitivityLevel authorizedUsers piName piEmail workpackage
      overwriteExisting today ts copyFails writeFails).2 with
    ⟨fsmid, hmid, hfin⟩
  have hmids : (fsFind fsmid p).isSome := by
    rcases hmid with rfl | rfl
    · exact h
    · exact isSome_tryCopy2 _ _ h
  rcases hfin with hfin | hfin <;> rw [hfin]
  · exact hmids
  · exact isSome_tryWrite _ _ hmids

theorem cfp_isDir_iff (fs : FS) (p : Path) (folderPath : Path)
    (investigationLabel studyLabel studyTitle sensitivityLevel : Option String)
    (authorizedUsers : List UserRec) (piName piEmail workpackage : Option String)
    (overwriteExisting : Bool) (today ts : String) (copyFails writeFails : Bool) :
    isDir (createFolderPolicy fs folderPath investigationLabel studyLabel
      studyTitle sensitivityLevel authorizedUsers piName piEmail workpackage
      overwriteExisting today ts copyFails writeFails).1 p ↔ isDir fs p := by
  rcases (cfp_shape fs folderPath investigationLabel studyLabel studyTitle
      sensitivityLevel authorizedUsers piName piEmail workpackage
      overwriteExisting today ts copyFails writeFails).2 with
    ⟨fsmid, hmid, hfin⟩
  have hmidd : isDir fsmid p ↔ isDir fs p := by
    rcases hmid with rfl | rfl
    · exact Iff.rfl
    · exact isDir_tryCopy2_iff fs _ _ p
  rcases hfin with hfin | hfin <;> rw [hfin]
  · exact hmidd
  · exact (isDir_tryWrite_iff fsmid _ p _).trans hmidd

theorem cfp_file {fs : FS} {p : Path} {c : String} {folderPath : Path}
    {investigationLabel studyLabel studyTitle sensitivityLevel : Option String}
    {authorizedUsers : List UserRec} {piName piEmail workpackage : Option String}
    {overwriteExisting : Bool} {today ts : String} {copyFails writeFails : Bool}
    (h : fsFind fs p = some (Entry.file c)) :
    ∃ c2, fsFind (createFolderPolicy fs folderPath investigationLabel studyLabel
      studyTitle sensitivityLevel authorizedUsers piName piEmail workpackage
      overwriteExisting today ts copyFails writeFails).1 p =
      some (Entry.file c2) := by
  rcases (cfp_shape fs folderPath investigationLabel studyLabel studyTitle
      sensitivityLevel authorizedUsers piName piEmail workpackage
      overwriteExisting today ts copyFails writeFails).2 with
    ⟨fsmid, hmid, hfin⟩
  have hmidf : ∃ c1, fsFind fsmid p = some (Entry.file c1) := by
    rcases hmid with rfl | rfl
    · exact ⟨c, h⟩
    · exact file_tryCopy2 _ _ h
  rcases hmidf with ⟨c1, hc1⟩
  rcases hfin with hfin | hfin <;> rw [hfin]
  · exact ⟨c1, hc1⟩
  · exact file_tryWrite _ _ hc1

/-! ### Lemmas about `afterMain` (the tail of `create_folder_structure`) -/

theorem policyStep_preserve {args : CfsArgs} {today ts : String} {fs : FS}
    {mainPath p : Path} {e : Entry} (h : fsFind fs p = some e)
    (hp : p ≠ mainPath ++ ["FOLDER_POLICY.md"])
    (hb : p ≠ mainPath ++ ["FOLDER_POLICY.md.bak." ++ ts])
    (hbp : p ≠ mainPath ++ ["FOLDER_POLICY.md.bak." ++ ts,
      "FOLDER_POLICY.md"]) :
    fsFind (policyStep args today ts fs mainPath) p = some e := by
  unfold policyStep
  exact cfp_preserve h hp hb hbp

theorem policyStep_isSome {args : CfsArgs} {today ts : String} {fs : FS}
    {mainPath p : Path} (h : (fsFind fs p).isSome) :
    (fsFind (policyStep args today ts fs mainPath) p).isSome := by
  unfold policyStep
  exact cfp_isSome h

theorem policyStep_isDir_iff (args : CfsArgs) (today ts : String) (fs : FS)
    (mainPath p : Path) :
    isDir (policyStep args today ts fs mainPath) p ↔ isDir fs p := by
  unfold policyStep
  exact cfp_isDir_iff fs p mainPath _ _ _ _ _ _ _ _ _ today ts false false

theorem policyStep_file {args : CfsArgs} {today ts : String} {fs : FS}
    {mainPath p : Path} {c : String} (h : fsFind fs p = some (Entry.file c)) :
    ∃ c2, fsFind (policyStep args today ts fs mainPath) p =
      some (Entry.file c2) := by
  unfold policyStep
  exact cfp_file h

theorem afterMain_snd (args : CfsArgs) (today ts : String) (fs : FS)
    (mainPath : Path) :
    (afterMain args today ts fs mainPath).2 = Except.ok mainPath := rfl

theorem afterMain_preserve {args : CfsArgs} {today ts : String} {fs : FS}
    {mainPath p : Path} {e : Entry} (h : fsFind fs p = some e)
    (hp : p ≠ mainPath ++ ["FOLDER_POLICY.md"])
    (hb : p ≠ mainPath ++ ["FOLDER_POLICY.md.bak." ++ ts])
    (hbp : p ≠ mainPath ++ ["FOLDER_POLICY.md.bak." ++ ts,
      "FOLDER_POLICY.md"]) :
    fsFind (afterMain args today ts fs mainPath).1 p = some e := by
  simp only [afterMain]
  apply policyStep_preserve _ hp hb hbp
  apply createSubfoldersMap_preserve
  split
  · exact h
  · exact fsFind_mkdirs_of_some h

theorem afterMain_isSome {args : CfsArgs} {today ts : String} {fs : FS}
    {mainPath p : Path} (h : (fsFind fs p).isSome) :
    (fsFind (afterMain args today ts fs mainPath).1 p).isSome := by
  simp only [afterMain]
  apply policyStep_isSome
  apply createSubfoldersMap_preserve_isSome
  split
  · exact h
  · exact isSome_mkdirs h

theorem afterMain_isDir {args : CfsArgs} {today ts : String} {fs : FS}
    {mainPath p : Path} (h : isDir fs p) :
    isDir (afterMain args today ts fs mainPath).1 p := by
  simp only [afterMain]
  rw [policyStep_isDir_iff]
  apply createSubfoldersMap_preserve
  split
  · exact h
  · exact fsFind_mkdirs_of_some h

theorem afterMain_file {args : CfsArgs} {today ts : String} {fs : FS}
    {mainPath p : Path} {c : String} (h : fsFind fs p = some (Entry.file c)) :
    ∃ c2, fsFind (afterMain args today ts fs mainPath).1 p =
      some (Entry.file c2) := by
  simp only [afterMain]
  apply policyStep_file
  apply createSubfoldersMap_preserve
  split
  · exact h
  · exact fsFind_mkdirs_of_some h

theorem afterMain_fixpoint {args : CfsArgs} {today ts : String} {fs : FS}
    {mainPath : Path} (hmp : (fsFind fs mainPath).isSome)
    (hcov : ∀ q ∈ structNodePathsMap (resolvedStruct args) mainPath,
      (fsFind fs q).isSome) :
    (afterMain args today ts fs mainPath).1 =
      policyStep args today ts fs mainPath := by
  simp only [afterMain]
  rw [if_pos (by simpa [fsExists] using hmp)]
  rw [createSubfoldersMap_fixpoint _ _ _ hcov]

theorem afterMain_covers {args : CfsArgs} {today ts : String} {fs : FS}
    {mainPath : Path} (hmp : mainPath ≠ []) :
    (fsFind (afterMain args today ts fs mainPath).1 mainPath).isSome ∧
      ∀ q ∈ structNodePathsMap (resolvedStruct args) mainPath,
        (fsFind (afterMain args today ts fs mainPath).1 q).isSome := by
  simp only [afterMain]
  constructor
  · apply policyStep_isSome
    apply createSubfoldersMap_preserve_isSome
    split
    · rename_i hex
      simpa [fsExists] using hex
    · exact isSome_mkdirs_self hmp fs
  · intro q hq
    apply policyStep_isSome
    exact createSubfoldersMap_covers _ _ _ q hq

/-! ### Branch analysis of `create_folder_structure` -/

theorem splitOnChar_ne_nil (c : Char) (l : List Char) : splitOnChar c l ≠ [] := by
  cases l with
  | nil => simp [splitOnChar]
  | cons x xs =>
    simp only [splitOnChar]
    split
    · simp
    · split
      · simp
      · simp

theorem strSplitSlash_ne_nil (s : String) : strSplitSlash s ≠ [] := by
  unfold strSplitSlash strSplitChar
  simp [splitOnChar_ne_nil]

theorem joinStr_ne_nil (p : Path) (s : String) : joinStr p s ≠ [] := by
  unfold joinStr
  intro h
  rcases List.append_eq_nil.mp h with ⟨h1, h2⟩
  exact strSplitSlash_ne_nil s h2

theorem cfs_shape (args : CfsArgs) (today ts : String) :
    (∃ r, ∀ fs, fsExists fs args.targetPath = true →
        createFolderStructure args today ts fs = (fs, Except.error r)) ∨
    (∃ mp, mp ≠ [] ∧ ∀ fs, fsExists fs args.targetPath = true →
        createFolderStructure args today ts fs = afterMain args today ts fs mp) ∨
    (∃ ip mp, ip ≠ [] ∧ mp ≠ [] ∧ ∀ fs, fsExists fs args.targetPath = true →
        createFolderStructure args today ts fs =
          afterMain args today ts (if fsExists fs ip then fs else mkdirs fs ip) mp) := by
  cases hfn : args.folderName with
  | none =>
    cases h1 : (truthy args.investigationLabel && truthy args.studyLabel &&
        truthy args.studySlug) with
    | false =>
      left
      refine ⟨PyError.valueError, fun fs hfs => ?_⟩
      simp [createFolderStructure, hfn, hfs, h1]
    | true =>
      cases h2 : truthy args.workpackage with
      | false =>
        left
        refine ⟨PyError.valueError, fun fs hfs => ?_⟩
        simp [createFolderStructure, hfn, hfs, h1, h2]
      | true =>
        cases h3 : args.createInvestigationFolder with
        | true =>
          right; right
          refine ⟨args.targetPath ++
              ["i_" ++ pyStr args.workpackage ++ "_" ++ pyStr args.investigationLabel],
            args.targetPath ++
              ["i_" ++ pyStr args.workpackage ++ "_" ++ pyStr args.investigationLabel] ++
              ["s_" ++ pyStr args.workpackage ++ "-" ++ pyStr args.investigationLabel ++
                "-" ++ pyStr args.studyLabel ++ "_" ++ pyStr args.studySlug],
            by simp, by simp, fun fs hfs => ?_⟩
          simp [createFolderStructure, hfn, hfs, h1, h2, h3]
        | false =>
          right; left
          refine ⟨args.targetPath ++
              ["s_" ++ pyStr args.workpackage ++ "-" ++ pyStr args.investigationLabel ++
                "-" ++ pyStr args.studyLabel ++ "_" ++ pyStr args.studySlug],
            by simp, fun fs hfs => ?_⟩
          simp [createFolderStructure, hfn, hfs, h1, h2, h3]
  | some fn =>
    cases h3 : args.createInvestigationFolder with
    | true =>
      cases h4 : (strStartsWith fn "i_" && strHasChar fn '/') with
      | true =>
        right; left
        refine ⟨joinStr args.targetPath fn, joinStr_ne_nil _ _, fun fs hfs => ?_⟩
        simp [createFolderStructure, hfn, hfs, h3, h4]
      | false =>
        cases h5 : (truthy args.workpackage && truthy args.investigationLabel) with
        | false =>
          left
          refine ⟨PyError.valueError, fun fs hfs => ?_⟩
          simp [createFolderStructure, hfn, hfs, h3, h4, h5]
        | true =>
          right; right
          refine ⟨args.targetPath ++
              ["i_" ++ pyStr args.workpackage ++ "_" ++ pyStr args.investigationLabel],
            joinStr (args.targetPath ++
              ["i_" ++ pyStr args.workpackage ++ "_" ++ pyStr args.investigationLabel]) fn,
            by simp, joinStr_ne_nil _ _, fun fs hfs => ?_⟩
          simp [createFolderStructure, hfn, hfs, h3, h4, h5]
    | false =>
      cases h6 : (strHasChar fn '/' && strStartsWith fn "i_") with
      | true =>
        cases h7 : strStartsWith ((strSplitSlash fn).getLastD "")
            ("s_" ++ pyStr args.workpackage ++ "-") with
        | true =>
          right; left
          refine ⟨args.targetPath ++ [(strSplitSlash fn).getLastD ""],
            by simp, fun fs hfs => ?_⟩
          simp only [List.getLastD_eq_getLast?] at h7
          simp [createFolderStructure, hfn, hfs, h3, h6, h7]
        | false =>
          cases h8 : (truthy args.workpackage && truthy args.investigationLabel &&
              truthy args.studyLabel && truthy args.studySlug) with
          | false =>
            left
            refine ⟨PyError.valueError, fun fs hfs => ?_⟩
            simp only [List.getLastD_eq_getLast?] at h7
            simp [createFolderStructure, hfn, hfs, h3, h6, h7, h8]
          | true =>
            right; left
            refine ⟨args.targetPath ++
                ["s_" ++ pyStr args.workpackage ++ "-" ++ pyStr args.investigationLabel ++
                  "-" ++ pyStr args.studyLabel ++ "_" ++ pyStr args.studySlug],
              by simp, fun fs hfs => ?_⟩
            simp only [List.getLastD_eq_getLast?] at h7
            simp [createFolderStructure, hfn, hfs, h3, h6, h7, h8]
      | false =>
        right; left
        refine ⟨joinStr args.targetPath fn, joinStr_ne_nil _ _, fun fs hfs => ?_⟩
        simp [createFolderStructure, hfn, hfs, h3, h6]

/-! ### Run-level invariants of `create_folder_structure` -/

theorem cfs_target_missing {args : CfsArgs} {today ts : String} {fs : FS}
    (h : fsExists fs args.targetPath = false) :
    createFolderStructure args today ts fs = (fs, Except.error PyError.fileNotFound) := by
  unfold createFolderStructure
  rw [if_pos (by simp [h])]

theorem cfs_ok_shape {args : CfsArgs} {today ts : String} {fs : FS} {mp : Path}
    (h : (createFolderStructure args today ts fs).2 = Except.ok mp) :
    mp ≠ [] ∧ fsExists fs args.targetPath = true ∧
      (createFolderStructure args today ts fs = afterMain args today ts fs mp ∨
        ∃ ip, ip ≠ [] ∧ createFolderStructure args today ts fs =
          afterMain args today ts (if fsExists fs ip then fs else mkdirs fs ip) mp) := by
  by_cases htgt : fsExists fs args.targetPath = true
  · rcases cfs_shape args today ts with ⟨r, hr⟩ | ⟨mp1, hmp1, hr⟩ | ⟨ip, mp1, hip, hmp1, hr⟩
    · rw [hr fs htgt] at h
      cases h
    · have hmp : mp1 = mp := by
        rw [hr fs htgt, afterMain_snd] at h
        exact Except.ok.inj h
      subst hmp
      exact ⟨hmp1, htgt, Or.inl (hr fs htgt)⟩
    · have hmp : mp1 = mp := by
        rw [hr fs htgt, afterMain_snd] at h
        exact Except.ok.inj h
      subst hmp
      exact ⟨hmp1, htgt, Or.inr ⟨ip, hip, hr fs htgt⟩⟩
  · rw [cfs_target_missing (Bool.not_eq_true _ ▸ htgt)] at h
    cases h

theorem cfs_error_fst {args : CfsArgs} {today ts : String} {fs : FS} {r : PyError}
    (h : (createFolderStructure args today ts fs).2 = Except.error r) :
    (createFolderStructure args today ts fs).1 = fs := by
  by_cases htgt : fsExists fs args.targetPath = true
  · rcases cfs_shape args today ts with ⟨r1, hr⟩ | ⟨mp1, hmp1, hr⟩ | ⟨ip, mp1, hip, hmp1, hr⟩
    · rw [hr fs htgt]
    · rw [hr fs htgt, afterMain_snd] at h
      cases h
    · rw [hr fs htgt, afterMain_snd] at h
      cases h
  · rw [cfs_target_missing (Bool.not_eq_true _ ▸ htgt)]

theorem cfs_isDir {args : CfsArgs} {today ts : String} {fs : FS} {p : Path}
    (h : isDir fs p) : isDir (createFolderStructure args today ts fs).1 p := by
  cases hres : (createFolderStructure args today ts fs).2 with
  | error r =>
    rw [cfs_error_fst hres]
    exact h
  | ok mp =>
    rcases cfs_ok_shape hres with ⟨hmp, htgt, hcase | ⟨ip, hip, hcase⟩⟩
    · rw [hcase]
      exact afterMain_isDir h
    · rw [hcase]
      apply afterMain_isDir
      split
      · exact h
      · exact fsFind_mkdirs_of_some h

theorem cfs_isSome {args : CfsArgs} {today ts : String} {fs : FS} {p : Path}
    (h : (fsFind fs p).isSome) :
    (fsFind (createFolderStructure args today ts fs).1 p).isSome := by
  cases hres : (createFolderStructure args today ts fs).2 with
  | error r =>
    rw [cfs_error_fst hres]
    exact h
  | ok mp =>
    rcases cfs_ok_shape hres with ⟨hmp, htgt, hcase | ⟨ip, hip, hcase⟩⟩
    · rw [hcase]
      exact afterMain_isSome h
    · rw [hcase]
      apply afterMain_isSome
      split
      · exact h
      · exact isSome_mkdirs h

theorem cfs_file_preserve {args : CfsArgs} {today ts : String} {fs : FS}
    {p mp : Path} {c : String}
    (hres : (createFolderStructure args today ts fs).2 = Except.ok mp)
    (h : fsFind fs p = some (Entry.file c))
    (hp : p ≠ mp ++ ["FOLDER_POLICY.md"])
    (hb : p ≠ mp ++ ["FOLDER_POLICY.md.bak." ++ ts])
    (hbp : p ≠ mp ++ ["FOLDER_POLICY.md.bak." ++ ts, "FOLDER_POLICY.md"]) :
    fsFind (createFolderStructure args today ts fs).1 p = some (Entry.file c) := by
  rcases cfs_ok_shape hres with ⟨hmp, htgt, hcase | ⟨ip, hip, hcase⟩⟩
  · rw [hcase]
    exact afterMain_preserve h hp hb hbp
  · rw [hcase]
    apply afterMain_preserve _ hp hb hbp
    split
    · exact h
    · exact fsFind_mkdirs_of_some h

theorem cfs_idem_dir {args : CfsArgs} {today ts : String} {fs : FS} (p : Path) :
    isDir (createFolderStructure args today ts
        (createFolderStructure args today ts fs).1).1 p ↔
      isDir (createFolderStructure args today ts fs).1 p := by
  cases hres : (createFolderStructure args today ts fs).2 with
  | error r =>
    have hfst := cfs_error_fst hres
    rw [hfst]
    by_cases htgt : fsExists fs args.targetPath = true
    · rcases cfs_shape args today ts with ⟨r1, hr⟩ | ⟨mp1, hmp1, hr⟩ | ⟨ip, mp1, hip, hmp1, hr⟩
      · rw [hr fs htgt]
      · rw [hr fs htgt, afterMain_snd] at hres
        cases hres
      · rw [hr fs htgt, afterMain_snd] at hres
        cases hres
    · rw [cfs_target_missing (Bool.not_eq_true _ ▸ htgt)]
  | ok mp =>
    rcases cfs_ok_shape hres with ⟨hmp, htgt, hor⟩
    have htgt1 : fsExists (createFolderStructure args today ts fs).1
        args.targetPath = true := by
      simp only [fsExists] at htgt ⊢
      exact cfs_isSome htgt
    rcases cfs_shape args today ts with ⟨r1, hr⟩ | ⟨mp1, hmp1, hr⟩ | ⟨ip, mp1, hip, hmp1, hr⟩
    · rw [hr fs htgt] at hres
      cases hres
    · have hmp1mp : mp1 = mp := by
        have := hr fs htgt
        rw [this, afterMain_snd] at hres
        exact Except.ok.inj hres
      subst hmp1mp
      rw [hr _ htgt1]
      have hcov := @afterMain_covers args today ts fs mp1 hmp1
      have hrun1 : (createFolderStructure args today ts fs).1 =
          (afterMain args today ts fs mp1).1 := by rw [hr fs htgt]
      rw [hrun1]
      rw [afterMain_fixpoint hcov.1 hcov.2]
      exact policyStep_isDir_iff args today ts _ mp1 p
    · have hmp1mp : mp1 = mp := by
        have := hr fs htgt
        rw [this, afterMain_snd] at hres
        exact Except.ok.inj hres
      subst hmp1mp
      rw [hr _ htgt1]
      set fs0 := (if fsExists fs ip then fs else mkdirs fs ip) with hfs0
      have hipSome : (fsFind fs0 ip).isSome := by
        rw [hfs0]
        split
        · rename_i hex
          simpa [fsExists] using hex
        · exact isSome_mkdirs_self hip fs
      have hrun1 : (createFolderStructure args today ts fs).1 =
          (afterMain args today ts fs0 mp1).1 := by rw [hr fs htgt]
      have hip1 : (fsFind (createFolderStructure args today ts fs).1 ip).isSome := by
        rw [hrun1]
        exact afterMain_isSome hipSome
      have hguard : (if fsExists (createFolderStructure args today ts fs).1 ip then
          (createFolderStructure args today ts fs).1
          else mkdirs (createFolderStructure args today ts fs).1 ip) =
          (createFolderStructure args today ts fs).1 := by
        rw [if_pos (by simpa [fsExists] using hip1)]
      rw [hguard]
      have hcov := @afterMain_covers args today ts fs0 mp1 hmp1
      rw [hrun1]
      rw [afterMain_fixpoint hcov.1 hcov.2]
      exact policyStep_isDir_iff args today ts _ mp1 p

/-! ### Localization lemmas for `create_directory_structure` -/

theorem fsFind_setIfAbsent_of_ne {p q : Path} (hne : p ≠ q) (fs : FS) :
    fsFind (setIfAbsent fs q) p = fsFind fs p := by
  unfold setIfAbsent
  split
  · rfl
  · simp only [fsFind]
    rw [if_neg (fun h => hne h.symm)]

theorem fsFind_foldl_setIfAbsent_of_not_mem {l : List Path} {p : Path}
    (hp : p ∉ l) (fs : FS) :
    fsFind (l.foldl setIfAbsent fs) p = fsFind fs p := by
  induction l generalizing fs with
  | nil => rfl
  | cons q rest ih =>
    simp only [List.foldl]
    rw [ih (fun h => hp (List.mem_cons_of_mem q h))]
    exact fsFind_setIfAbsent_of_ne (fun h => hp (by rw [h]; exact List.mem_cons_self q rest)) fs

theorem fsFind_mkdirs_of_not_anc {p q : Path} (h : p ∉ ancestorsOf q) (fs : FS) :
    fsFind (mkdirs fs q) p = fsFind fs p :=
  fsFind_foldl_setIfAbsent_of_not_mem h fs

theorem not_anc_of_longer {p q : Path} (h : q.length < p.length) :
    p ∉ ancestorsOf q := by
  intro hmem
  rcases List.mem_map.mp hmem with ⟨i, hi, heq⟩
  have hlen := congrArg List.length heq
  simp only [List.length_take] at hlen
  omega

theorem not_anc_append_single {base : Path} {k : String} {p : Path}
    (h1 : ∀ i : Nat, p ≠ base.take i) (h2 : p ≠ base ++ [k]) :
    p ∉ ancestorsOf (base ++ [k]) := by
  intro hmem
  rcases List.mem_map.mp hmem with ⟨i, hi, heq⟩
  by_cases hle : i + 1 ≤ base.length
  · rw [List.take_append_of_le_length hle] at heq
    exact h1 (i + 1) heq.symm
  · have hwhole : (base ++ [k]).take (i + 1) = base ++ [k] := by
      apply List.take_of_length_le
      simp only [List.length_append, List.length_cons, List.length_nil]
      omega
    rw [hwhole] at heq
    exact h2 heq.symm

mutual

theorem cdsEntries_unchanged (entries : List (String × StructVal))
    (basePath : Path) (fs : FS) (p : Path)
    (h1 : ∀ i : Nat, p ≠ basePath.take i)
    (h2 : ∀ k ∈ entries.map Prod.fst, ∀ r : List String, p ≠ basePath ++ k :: r) :
    fsFind (cdsEntries entries basePath fs) p = fsFind fs p := by
  match entries with
  | [] => simp [cdsEntries]
  | (key, value) :: rest =>
    rw [show cdsEntries ((key, value) :: rest) basePath fs =
      cdsEntries rest basePath (cdsStep key value basePath fs) from by
        simp [cdsEntries]]
    rw [cdsEntries_unchanged rest basePath _ p h1
      (fun k hk r => h2 k (by simp [hk]) r)]
    exact cdsStep_unchanged key value basePath fs p h1
      (fun r => h2 key (by simp) r)
termination_by sizeOf entries
decreasing_by
  all_goals simp_wf
  all_goals omega

theorem cdsStep_unchanged (key : String) (value : StructVal) (basePath : Path)
    (fs : FS) (p : Path)
    (h1 : ∀ i : Nat, p ≠ basePath.take i)
    (h2 : ∀ r : List String, p ≠ basePath ++ key :: r) :
    fsFind (cdsStep key value basePath fs) p = fsFind fs p := by
  have hcur : p ≠ basePath ++ [key] := h2 []
  have hanc : p ∉ ancestorsOf (basePath ++ [key]) :=
    not_anc_append_single h1 hcur
  have h1c : ∀ i : Nat, p ≠ (basePath ++ [key]).take i := by
    intro i
    by_cases hle : i ≤ basePath.length
    · rw [List.take_append_of_le_length hle]
      exact h1 i
    · rw [List.take_of_length_le (by
        simp only [List.length_append, List.length_cons, List.length_nil]
        omega)]
      exact hcur
  cases value with
  | map sub =>
    simp only [cdsStep]
    cases hrd : assocFind sub "_readme" with
    | some rv =>
      rw [cdsEntries_unchanged _ _ _ p h1c (fun k hk r => by
        have : basePath ++ [key] ++ k :: r = basePath ++ key :: (k :: r) := by simp
        rw [this]
        exact h2 (k :: r))]
      rw [fsFind_writeFile_of_ne (by
        have : basePath ++ [key] ++ ["README.md"] =
          basePath ++ key :: ["README.md"] := by simp
        rw [this]
        exact h2 ["README.md"])]
      exact fsFind_mkdirs_of_not_anc hanc fs
    | none =>
      rw [cdsEntries_unchanged _ _ _ p h1c (fun k hk r => by
        have : basePath ++ [key] ++ k :: r = basePath ++ key :: (k :: r) := by simp
        rw [this]
        exact h2 (k :: r))]
      exact fsFind_mkdirs_of_not_anc hanc fs
  | str sv =>
    simp only [cdsStep]
    split
    · exact fsFind_writeFile_of_ne hcur fs sv
    · rw [fsFind_writeFile_of_ne (by
        have : basePath ++ [key] ++ ["README.md"] =
          basePath ++ key :: ["README.md"] := by simp
        rw [this]
        exact h2 ["README.md"])]
      exact fsFind_mkdirs_of_not_anc hanc fs
  | null =>
    simp only [cdsStep]
    exact fsFind_mkdirs_of_not_anc hanc fs
  | list names =>
    simp only [cdsStep]
termination_by sizeOf value
decreasing_by
  all_goals simp_wf
  all_goals
    first
    | omega
    | (apply Nat.lt_of_le_of_lt (sizeOf_filter_le _ _)
       omega)

end

/-! ### Lemmas about the canonical name builder and inverse parser -/

theorem splitOnChar_no_sep {c : Char} {a : List Char} (h : c ∉ a) :
    splitOnChar c a = [a] := by
  induction a with
  | nil => rfl
  | cons x xs ih =>
    simp only [splitOnChar]
    rw [if_neg (fun hx => h (by rw [hx]; exact List.mem_cons_self c xs))]
    rw [ih (fun hx => h (List.mem_cons_of_mem x hx))]

theorem splitOnChar_append {c : Char} {a b : List Char} (h : c ∉ a) :
    splitOnChar c (a ++ c :: b) = a :: splitOnChar c b := by
  induction a with
  | nil => simp [splitOnChar]
  | cons x xs ih =>
    simp only [List.cons_append, splitOnChar, List.append_eq]
    rw [if_neg (fun hx => h (by rw [hx]; exact List.mem_cons_self c xs))]
    rw [ih (fun hx => h (List.mem_cons_of_mem x hx))]

theorem splitFirst_no_sep {c : Char} {a : List Char} (h : c ∉ a) :
    splitFirst c a = none := by
  induction a with
  | nil => rfl
  | cons x xs ih =>
    simp only [splitFirst]
    rw [if_neg (fun hx => h (by rw [hx]; exact List.mem_cons_self c xs))]
    rw [ih (fun hx => h (List.mem_cons_of_mem x hx))]
    rfl

theorem splitFirst_append {c : Char} {a b : List Char} (h : c ∉ a) :
    splitFirst c (a ++ c :: b) = some (a, b) := by
  induction a with
  | nil => simp [splitFirst]
  | cons x xs ih =>
    simp only [List.cons_append, splitFirst, List.append_eq]
    rw [if_neg (fun hx => h (by rw [hx]; exact List.mem_cons_self c xs))]
    rw [ih (fun hx => h (List.mem_cons_of_mem x hx))]
    rfl

theorem parse_two_segments {input a b : List Char}
    (h : splitOnChar '/' input = [a, b]) :
    parseCanonicalName input = parseSegments a b := by
  unfold parseCanonicalName
  rw [h]

theorem buildCanonicalName_segments (wp inv st slug : List Char) :
    buildCanonicalName wp inv st slug =
      ('i' :: '_' :: (wp ++ '_' :: inv)) ++
        '/' :: ('s' :: '_' :: (inv ++ '-' :: (st ++ '_' :: slug))) := by
  simp [buildCanonicalName]

theorem parse_build_roundtrip {wp inv st slug : List Char}
    (hwp : validLabel wp) (hinv : validLabel inv) (hst : validLabel st)
    (hslug : validSlug slug) :
    parseCanonicalName (buildCanonicalName wp inv st slug) =
      Except.ok (wp, inv, st) := by
  obtain ⟨hwp0, hwpU, hwpD, hwpS⟩ := hwp
  obtain ⟨hinv0, hinvU, hinvD, hinvS⟩ := hinv
  obtain ⟨hst0, hstU, hstD, hstS⟩ := hst
  obtain ⟨hslug0, hslugU, hslugS⟩ := hslug
  rw [buildCanonicalName_segments]
  rw [parse_two_segments (by
    rw [splitOnChar_append (by
      simp only [List.mem_cons, List.mem_append]
      push_neg
      exact ⟨by decide, by decide, hwpS, by decide, hinvS⟩)]
    rw [splitOnChar_no_sep (by
      simp only [List.mem_cons, List.mem_append]
      push_neg
      exact ⟨by decide, by decide, hinvS, by decide, hstS, by decide, hslugS⟩)])]
  simp only [parseSegments]
  rw [if_pos (by simp)]
  rw [splitFirst_append hwpU]
  show parseSeg2 wp inv ('s' :: '_' :: (inv ++ '-' :: (st ++ '_' :: slug))) = _
  simp only [parseSeg2]
  rw [if_pos (by simp)]
  have hre : inv ++ '-' :: (st ++ '_' :: slug) =
      (inv ++ '-' :: st) ++ '_' :: slug := by simp
  rw [hre]
  rw [splitFirst_append (by
    simp only [List.mem_append, List.mem_cons]
    push_neg
    exact ⟨hinvU, by decide, hstU⟩)]
  show (match splitFirst '-' (inv ++ '-' :: st) with
    | some (inv2, st2) =>
      if inv = inv2 then Except.ok (wp, inv, st2)
      else Except.error MalformedName.labelMismatch
    | none => Except.error MalformedName.missingSeparator) = _
  rw [splitFirst_append hinvD]
  simp

theorem parse_wrong_segments {input : List Char}
    (h : (splitOnChar '/' input).length ≠ 2) :
    parseCanonicalName input = Except.error MalformedName.wrongSegmentCount := by
  unfold parseCanonicalName
  match hsp : splitOnChar '/' input with
  | [] => rfl
  | [a] => rfl
  | [a, b] =>
    rw [hsp] at h
    simp at h
  | a :: b :: c :: rest => rfl

theorem parse_missing_i_marker {a b : List Char} (ha : ('/' : Char) ∉ a)
    (hb : ('/' : Char) ∉ b) (hshape : ∀ r, a ≠ 'i' :: '_' :: r) :
    parseCanonicalName (a ++ '/' :: b) =
      Except.error MalformedName.missingPre := by
  rw [parse_two_segments (by rw [splitOnChar_append ha, splitOnChar_no_sep hb])]
  match a, hshape with
  | [], _ => rfl
  | [x], _ => rfl
  | x :: y :: rest, hshape =>
    simp only [parseSegments]
    rw [if_neg (fun hxy => hshape rest (by rw [hxy.1, hxy.2]))]

theorem parse_missing_s_marker {wp inv b : List Char}
    (hwpU : ('_' : Char) ∉ wp) (hwpS : ('/' : Char) ∉ wp)
    (hinvS : ('/' : Char) ∉ inv) (hb : ('/' : Char) ∉ b)
    (hshape : ∀ r, b ≠ 's' :: '_' :: r) :
    parseCanonicalName (('i' :: '_' :: (wp ++ '_' :: inv)) ++ '/' :: b) =
      Except.error MalformedName.missingPre := by
  rw [parse_two_segments (by
    rw [splitOnChar_append (by
      simp only [List.mem_cons, List.mem_append]
      push_neg
      exact ⟨by decide, by decide, hwpS, by decide, hinvS⟩),
      splitOnChar_no_sep hb])]
  simp only [parseSegments]
  rw [if_pos (by simp)]
  rw [splitFirst_append hwpU]
  show parseSeg2 wp inv b = _
  match b, hshape with
  | [], _ => rfl
  | [x], _ => rfl
  | x :: y :: rest, hshape =>
    simp only [parseSeg2]
    rw [if_neg (fun hxy => hshape rest (by rw [hxy.1, hxy.2]))]

theorem parse_missing_underscore {rest1 b : List Char}
    (hr : ('/' : Char) ∉ rest1) (hu : ('_' : Char) ∉ rest1)
    (hb : ('/' : Char) ∉ b) :
    parseCanonicalName (('i' :: '_' :: rest1) ++ '/' :: b) =
      Except.error MalformedName.missingSeparator := by
  rw [parse_two_segments (by
    rw [splitOnChar_append (by
      simp only [List.mem_cons]
      push_neg
      exact ⟨by decide, by decide, hr⟩), splitOnChar_no_sep hb])]
  simp only [parseSegments]
  rw [if_pos (by simp)]
  rw [splitFirst_no_sep hu]

theorem parse_label_mismatch {wp inv inv2 st slug : List Char}
    (hwp : validLabel wp) (hinv : validLabel inv) (hinv2 : validLabel inv2)
    (hst : validLabel st) (hslug : validSlug slug) (hne : inv ≠ inv2) :
    parseCanonicalName
      (('i' :: '_' :: (wp ++ '_' :: inv)) ++
        '/' :: ('s' :: '_' :: (inv2 ++ '-' :: (st ++ '_' :: slug)))) =
      Except.error MalformedName.labelMismatch := by
  obtain ⟨hwp0, hwpU, hwpD, hwpS⟩ := hwp
  obtain ⟨hinv0, hinvU, hinvD, hinvS⟩ := hinv
  obtain ⟨hinv20, hinv2U, hinv2D, hinv2S⟩ := hinv2
  obtain ⟨hst0, hstU, hstD, hstS⟩ := hst
  obtain ⟨hslug0, hslugU, hslugS⟩ := hslug
  rw [parse_two_segments (by
    rw [splitOnChar_append (by
      simp only [List.mem_cons, List.mem_append]
      push_neg
      exact ⟨by decide, by decide, hwpS, by decide, hinvS⟩)]
    rw [splitOnChar_no_sep (by
      simp only [List.mem_cons, List.mem_append]
      push_neg
      exact ⟨by decide, by decide, hinv2S, by decide, hstS, by decide, hslugS⟩)])]
  simp only [parseSegments]
  rw [if_pos (by simp)]
  rw [splitFirst_append hwpU]
  show parseSeg2 wp inv ('s' :: '_' :: (inv2 ++ '-' :: (st ++ '_' :: slug))) = _
  simp only [parseSeg2]
  rw [if_pos (by simp)]
  have hre : inv2 ++ '-' :: (st ++ '_' :: slug) =
      (inv2 ++ '-' :: st) ++ '_' :: slug := by simp
  rw [hre]
  rw [splitFirst_append (by
    simp only [List.mem_append, List.mem_cons]
    push_neg
    exact ⟨hinv2U, by decide, hstU⟩)]
  show (match splitFirst '-' (inv2 ++ '-' :: st) with
    | some (i2, st2) =>
      if inv = i2 then Except.ok (wp, inv, st2)
      else Except.error MalformedName.labelMismatch
    | none => Except.error MalformedName.missingSeparator) = _
  rw [splitFirst_append hinv2D]
  simp only
  rw [if_neg hne]

/-! ### Writes of `create_directory_structure` -/

theorem path_ne_take {basePath : Path} {k : String} {r : List String} (i : Nat) :
    basePath ++ k :: r ≠ basePath.take i := by
  intro hcontr
  have hlen := congrArg List.length hcontr
  simp only [List.length_append, List.length_cons, List.length_take] at hlen
  omega

theorem path_ne_other_key {basePath : Path} {k k2 : String} {r : List String}
    (hne : k2 ≠ k) (r2 : List String) :
    basePath ++ k :: r ≠ basePath ++ k2 :: r2 := by
  intro hcontr
  have := List.append_cancel_left hcontr
  exact hne (List.head_eq_of_cons_eq this).symm

theorem cdsEntries_dotted_write (entries : List (String × StructVal))
    (basePath : Path) :
    ∀ (fs : FS) (k c : String),
      (entries.map Prod.fst).Nodup → (k, StructVal.str c) ∈ entries →
      strHasChar k '.' = true →
      fsFind (cdsEntries entries basePath fs) (basePath ++ [k]) =
        some (Entry.file c) := by
  induction entries with
  | nil =>
    intro fs k c _ hmem _
    cases hmem
  | cons hd rest ih =>
    rcases hd with ⟨key, value⟩
    intro fs k c hnd hmem hdot
    rw [show cdsEntries ((key, value) :: rest) basePath fs =
      cdsEntries rest basePath (cdsStep key value basePath fs) from by
        simp [cdsEntries]]
    rcases List.mem_cons.mp hmem with heq | hrest
    · injection heq with h1 h2
      subst h1
      subst h2
      have hknotin : k ∉ rest.map Prod.fst := (List.nodup_cons.mp hnd).1
      rw [cdsEntries_unchanged rest basePath _ (basePath ++ [k])
        (fun i => path_ne_take i)
        (fun k2 hk2 r2 => path_ne_other_key
          (fun hcontr => hknotin (by rw [← hcontr]; exact hk2)) r2)]
      simp only [cdsStep]
      rw [if_pos hdot]
      exact fsFind_writeFile_self fs (basePath ++ [k]) c
    · exact ih _ k c (List.nodup_cons.mp hnd).2 hrest hdot

theorem cdsEntries_readme (entries : List (String × StructVal))
    (basePath : Path) :
    ∀ (fs : FS) (k : String) (sub : List (String × StructVal)) (rv : String),
      (entries.map Prod.fst).Nodup →
      (k, StructVal.map sub) ∈ entries →
      assocFind sub "_readme" = some (StructVal.str rv) →
      "README.md" ∉ sub.map Prod.fst →
      fsFind (cdsEntries entries basePath fs) (basePath ++ [k, "README.md"]) =
          some (Entry.file rv) ∧
        fsFind (cdsEntries entries basePath fs) (basePath ++ [k, "_readme"]) =
          fsFind fs (basePath ++ [k, "_readme"]) := by
  induction entries with
  | nil =>
    intro fs k sub rv _ hmem _ _
    cases hmem
  | cons hd rest ih =>
    rcases hd with ⟨key, value⟩
    intro fs k sub rv hnd hmem hrd hnoreadme
    rw [show cdsEntries ((key, value) :: rest) basePath fs =
      cdsEntries rest basePath (cdsStep key value basePath fs) from by
        simp [cdsEntries]]
    rcases List.mem_cons.mp hmem with heq | hrest
    · injection heq with h1 h2
      subst h1
      subst h2
      have hknotin : k ∉ rest.map Prod.fst := (List.nodup_cons.mp hnd).1
      have hstep : cdsStep k (StructVal.map sub) basePath fs =
          cdsEntries (sub.filter (fun kv => kv.1 ≠ "_readme")) (basePath ++ [k])
            (writeFile (mkdirs fs (basePath ++ [k]))
              (basePath ++ [k] ++ ["README.md"]) rv) := by
        simp only [cdsStep, hrd, stringOf]
      have hshape1 : basePath ++ [k] ++ ["README.md"] =
          basePath ++ [k, "README.md"] := by simp
      have hshape2 : basePath ++ [k] ++ ["_readme"] =
          basePath ++ [k, "_readme"] := by simp
      constructor
      · rw [cdsEntries_unchanged rest basePath _ (basePath ++ [k, "README.md"])
          (fun i => path_ne_take i)
          (fun k2 hk2 r2 => path_ne_other_key
            (fun hcontr => hknotin (by rw [← hcontr]; exact hk2)) r2)]
        rw [hstep]
        rw [cdsEntries_unchanged _ (basePath ++ [k]) _ _
          (fun i => by rw [← hshape1]; exact path_ne_take i)
          (fun k2 hk2 r2 => by
            rw [← hshape1, List.append_assoc, List.append_assoc]
            intro hcontr
            have hmid := List.append_cancel_left hcontr
            have htail := List.append_cancel_left hmid
            have hk2r : k2 = "README.md" :=
              (List.head_eq_of_cons_eq htail.symm)
            rcases List.mem_map.mp hk2 with ⟨kv, hkvmem, hkv1⟩
            exact hnoreadme (List.mem_map.mpr
              ⟨kv, (List.mem_filter.mp hkvmem).1, by rw [hkv1, hk2r]⟩))]
        rw [hshape1]
        exact fsFind_writeFile_self _ _ rv
      · rw [cdsEntries_unchanged rest basePath _ (basePath ++ [k, "_readme"])
          (fun i => path_ne_take i)
          (fun k2 hk2 r2 => path_ne_other_key
            (fun hcontr => hknotin (by rw [← hcontr]; exact hk2)) r2)]
        rw [hstep]
        rw [cdsEntries_unchanged _ (basePath ++ [k]) _ _
          (fun i => by rw [← hshape2]; exact path_ne_take i)
          (fun k2 hk2 r2 => by
            rw [← hshape2, List.append_assoc, List.append_assoc]
            intro hcontr
            have hmid := List.append_cancel_left hcontr
            have htail := List.append_cancel_left hmid
            have hk2r : k2 = "_readme" :=
              (List.head_eq_of_cons_eq htail.symm)
            rcases List.mem_map.mp hk2 with ⟨kv, hkvmem, hkv1⟩
            rcases List.mem_filter.mp hkvmem with ⟨hin, hpred⟩
            rw [hk2r] at hkv1
            simp at hpred
            exact hpred hkv1)]
        rw [fsFind_writeFile_of_ne (by
          rw [hshape1]
          intro hcontr
          have hmid := List.append_cancel_left hcontr
          simp at hmid)]
        exact fsFind_mkdirs_of_not_anc (not_anc_of_longer (by simp)) fs
    · have hkin : k ∈ rest.map Prod.fst :=
        List.mem_map.mpr ⟨(k, StructVal.map sub), hrest, rfl⟩
      have hkeyne : key ≠ k := fun hcontr =>
        (List.nodup_cons.mp hnd).1 (hcontr ▸ hkin)
      have hih := ih (cdsStep key value basePath fs) k sub rv
        (List.nodup_cons.mp hnd).2 hrest hrd hnoreadme
      refine ⟨hih.1, ?_⟩
      rw [hih.2]
      exact cdsStep_unchanged key value basePath fs _
        (fun i => path_ne_take i)
        (fun r2 => path_ne_other_key hkeyne r2)

/-! ### Claim theorems -/

/-- C10: for every call to `create_folder_structure` whose `target_path`
does not exist, the call fails with `FileNotFoundError` before performing
any filesystem mutation — the returned state is the input state and the
result is the error, so no directory or file is created anywhere. -/
theorem claim_c10_target_unavailable (args : CfsArgs) (today ts : String)
    (fs : FS) (h : fsFind fs args.targetPath = none) :
    createFolderStructure args today ts fs =
      (fs, Except.error PyError.fileNotFound) :=
  cfs_target_missing (by simp [fsExists, h])

theorem claim_c10_witness :
    createFolderStructure ⟨["missing"], none, some "A", some "B", none,
      some "s", none, none, none, none, some "W", none, false, false⟩
      "D" "T" [] = ([], Except.error PyError.fileNotFound) :=
  claim_c10_target_unavailable _ "D" "T" [] rfl

/-- C1 (counterexample): with `folder_name=None`,
`create_investigation_folder=True`, workpackage `WP1`, labels `CXR9` and
`STU2` and slug `test-study`, the returned main folder path is
`i_WP1_CXR9/s_WP1-CXR9-STU2_test-study` — the study segment includes the
workpackage — and not the claimed `i_WP1_CXR9/s_CXR9-STU2_test-study`. -/
theorem claim_c1_counterexample :
    (createFolderStructure ⟨[], none, some "CXR9", some "STU2", none,
      some "test-study", none, none, none, none, some "WP1", some [], false,
      true⟩ "D" "T" [([], Entry.dir)]).2 =
      Except.ok ["i_WP1_CXR9", "s_WP1-CXR9-STU2_test-study"] ∧
    (["i_WP1_CXR9", "s_WP1-CXR9-STU2_test-study"] : Path) ≠
      ["i_WP1_CXR9", "s_CXR9-STU2_test-study"] :=
  ⟨rfl, by decide⟩

/-- C1 (amended): for every call to `create_folder_structure` with
`folder_name=None`, `create_investigation_folder=True`, and workpackage,
investigation label, study label and study slug all provided (non-empty),
the returned main folder path is `target_path` followed by the two segments
`i_<workpackage>_<investigation_label>` and
`s_<workpackage>-<investigation_label>-<study_label>_<slug>`; in
particular workpackage `WP1`, labels `CXR9` and `STU2` and slug
`test-study` yield `i_WP1_CXR9/s_WP1-CXR9-STU2_test-study`. -/
theorem claim_c1_amended (args : CfsArgs) (today ts : String) (fs : FS)
    (wp inv st slug : String)
    (hfn : args.folderName = none)
    (hinv : args.investigationLabel = some inv) (hinv0 : inv ≠ "")
    (hst : args.studyLabel = some st) (hst0 : st ≠ "")
    (hslug : args.studySlug = some slug) (hslug0 : slug ≠ "")
    (hwp : args.workpackage = some wp) (hwp0 : wp ≠ "")
    (hcif : args.createInvestigationFolder = true)
    (htgt : fsExists fs args.targetPath = true) :
    (createFolderStructure args today ts fs).2 =
      Except.ok (args.targetPath ++
        ["i_" ++ wp ++ "_" ++ inv,
         "s_" ++ wp ++ "-" ++ inv ++ "-" ++ st ++ "_" ++ slug]) := by
  have h1 : (truthy args.investigationLabel && truthy args.studyLabel &&
      truthy args.studySlug) = true := by
    simp [truthy, hinv, hst, hslug, hinv0, hst0, hslug0]
  have h2 : truthy args.workpackage = true := by simp [truthy, hwp, hwp0]
  rw [show createFolderStructure args today ts fs = afterMain args today ts
      (if fsExists fs (args.targetPath ++ ["i_" ++ pyStr args.workpackage ++
          "_" ++ pyStr args.investigationLabel]) = true then fs
        else mkdirs fs (args.targetPath ++ ["i_" ++ pyStr args.workpackage ++
          "_" ++ pyStr args.investigationLabel]))
      (args.targetPath ++ ["i_" ++ pyStr args.workpackage ++ "_" ++
          pyStr args.investigationLabel] ++
        ["s_" ++ pyStr args.workpackage ++ "-" ++
          pyStr args.investigationLabel ++ "-" ++ pyStr args.studyLabel ++
          "_" ++ pyStr args.studySlug])
    from by simp [createFolderStructure, hfn, htgt, h1, h2, hcif]]
  rw [afterMain_snd]
  simp [hwp, hinv, hst, hslug, pyStr]

theorem claim_c1_amended_witness :
    (createFolderStructure ⟨[], none, some "CXR9", some "STU2", none,
      some "test-study", none, none, none, none, some "WP1", some [], false,
      true⟩ "D" "T" [([], Entry.dir)]).2 =
      Except.ok (([] : Path) ++
        ["i_" ++ "WP1" ++ "_" ++ "CXR9",
         "s_" ++ "WP1" ++ "-" ++ "CXR9" ++ "-" ++ "STU2" ++ "_" ++
           "test-study"]) :=
  claim_c1_amended _ "D" "T" _ "WP1" "CXR9" "STU2" "test-study" rfl rfl
    (by decide) rfl (by decide) rfl (by decide) rfl (by decide) rfl rfl

/-- C5 (counterexample): in `create_subfolders` of `create_study_folder.py`
— one of the two materializers the claim cites — a structure mapping key
containing a `.` with a string value produces a directory named after the
key and no file at all: the claimed file write does not happen there. -/
theorem claim_c5_counterexample :
    fsFind (createSubfoldersMap [("a.txt", StructVal.str "hello")] ["p"]
      [(["p"], Entry.dir)]) ["p", "a.txt"] = some Entry.dir ∧
    some Entry.dir ≠ some (Entry.file "hello") :=
  ⟨by decide, by decide⟩

/-- C5 (amended): in `ISADirectoryCreator.create_directory_structure`,
every structure mapping key that contains a `.` and has a string value is
written as a file at the corresponding path with that string as content,
unconditionally overwriting any existing content on every run (the initial
state `fs` is arbitrary), so after two runs with different content values
the file holds the content of the second run.  `create_subfolders` of
`create_study_folder.py`, by contrast, creates a directory named after the
key (see the counterexample). -/
theorem claim_c5_amended (basePath : Path)
    (entries entries2 : List (String × StructVal)) (fs : FS) (k c c2 : String)
    (hnd : (entries.map Prod.fst).Nodup) (hmem : (k, StructVal.str c) ∈ entries)
    (hdot : strHasChar k '.' = true)
    (_hnotdir : fsFind fs (basePath ++ [k]) ≠ some Entry.dir)
    (hnd2 : (entries2.map Prod.fst).Nodup)
    (hmem2 : (k, StructVal.str c2) ∈ entries2) :
    fsFind (createDirectoryStructure basePath entries fs) (basePath ++ [k]) =
      some (Entry.file c) ∧
    fsFind (createDirectoryStructure basePath entries2
        (createDirectoryStructure basePath entries fs)) (basePath ++ [k]) =
      some (Entry.file c2) := by
  constructor
  · unfold createDirectoryStructure
    exact cdsEntries_dotted_write entries basePath _ k c hnd hmem hdot
  · unfold createDirectoryStructure
    exact cdsEntries_dotted_write entries2 basePath _ k c2 hnd2 hmem2 hdot

theorem claim_c5_amended_witness :
    fsFind (createDirectoryStructure ["p"] [("a.txt", StructVal.str "hello")]
      []) ["p", "a.txt"] = some (Entry.file "hello") ∧
    fsFind (createDirectoryStructure ["p"] [("a.txt", StructVal.str "bye")]
      (createDirectoryStructure ["p"] [("a.txt", StructVal.str "hello")] []))
      ["p", "a.txt"] = some (Entry.file "bye") :=
  claim_c5_amended ["p"] [("a.txt", StructVal.str "hello")]
    [("a.txt", StructVal.str "bye")] [] "a.txt" "hello" "bye"
    (by simp) (by simp) (by decide) (by decide) (by simp) (by simp)

/-- C6 (counterexample): when `_readme` appears at the top level of the
structure passed to `create_directory_structure`, it is treated as an
ordinary child: a directory named `_readme` is created (with the text as
its own `README.md`), contradicting the claim that no entry named
`_readme` is ever created. -/
theorem claim_c6_counterexample :
    fsFind (createDirectoryStructure ["b"] [("_readme", StructVal.str "hello")]
      [(["b"], Entry.dir)]) ["b", "_readme"] = some Entry.dir := by
  simp only [createDirectoryStructure, cdsEntries, cdsStep]
  norm_num [mkdirs, ancestorsOf, setIfAbsent, fsFind, assocFind, stringOf,
    writeFile, strHasChar, List.range, List.range.loop]

/-- C6 (amended): for every mapping node that occurs as the value of a key
(a non-root `Children` node) and contains the key `_readme` with a string
value, materialization writes that string as the `README.md` of the
containing (parent) directory and excludes `_readme` from the recursive
expansion of the children: the filesystem is unchanged at the would-be
`_readme` child path.  At the root mapping, by contrast, `_readme` is
expanded as an ordinary child (see the counterexample).  The hypothesis
that no directory occupies the `README.md` path keeps the statement on the
inputs where the model's unguarded `open(..., "w")` matches Python (a
directory there would make the uncaught `IsADirectoryError` abort the
run). -/
theorem claim_c6_amended (basePath : Path)
    (entries : List (String × StructVal)) (fs : FS) (k : String)
    (sub : List (String × StructVal)) (rv : String)
    (hnd : (entries.map Prod.fst).Nodup)
    (hmem : (k, StructVal.map sub) ∈ entries)
    (hrd : assocFind sub "_readme" = some (StructVal.str rv))
    (hnoreadme : "README.md" ∉ sub.map Prod.fst)
    (_hnotdir : fsFind fs (basePath ++ [k, "README.md"]) ≠ some Entry.dir) :
    fsFind (createDirectoryStructure basePath entries fs)
        (basePath ++ [k, "README.md"]) = some (Entry.file rv) ∧
    fsFind (createDirectoryStructure basePath entries fs)
        (basePath ++ [k, "_readme"]) =
      fsFind (mkdirs fs basePath) (basePath ++ [k, "_readme"]) := by
  unfold createDirectoryStructure
  exact cdsEntries_readme entries basePath _ k sub rv hnd hmem hrd hnoreadme

theorem claim_c6_amended_witness :
    fsFind (createDirectoryStructure ["b"]
      [("d", StructVal.map [("_readme", StructVal.str "hi"),
        ("c", StructVal.null)])] []) ["b", "d", "README.md"] =
      some (Entry.file "hi") ∧
    fsFind (createDirectoryStructure ["b"]
      [("d", StructVal.map [("_readme", StructVal.str "hi"),
        ("c", StructVal.null)])] []) ["b", "d", "_readme"] =
      fsFind (mkdirs [] ["b"]) ["b", "d", "_readme"] :=
  claim_c6_amended ["b"]
    [("d", StructVal.map [("_readme", StructVal.str "hi"),
      ("c", StructVal.null)])] [] "d"
    [("_readme", StructVal.str "hi"), ("c", StructVal.null)] "hi"
    (by simp) (by simp) rfl (by decide) (by decide)

/-- C8: `filter_owners_and_pis_with_write_share_access` returns exactly the
input records whose role, lower-cased, is one of owner / principal
investigator / pi / principal_investigator and whose access level,
upper-cased, equals `READ-WRITE-SHARE`, preserving the input order (it is
`List.filter`, a pure function on immutable records); applied to the
records parsed from a study with one owner at read-write-share, one
contributor at read, and a PI supplied only by name/email, it returns
exactly the owner followed by the synthesized PI record, excluding the
contributor. -/
theorem claim_c8_filter_privileged :
    (∀ users : List UserRec,
      filterOwnersAndPis users = users.filter isPrivileged) ∧
    parseUsersFromStudyJson ⟨["Alice Smith (alice@x.org)"],
        ["Bob Jones (bob@x.org)"], [], some "Carol White",
        some "carol@x.org"⟩ =
      [⟨some "Alice Smith (alice@x.org)", some "Owner",
          some "READ-WRITE-SHARE", some "PERMANENT"⟩,
        ⟨some "Bob Jones (bob@x.org)", some "Contributor", some "READ",
          some "PERMANENT"⟩,
        ⟨some "Carol White (carol@x.org)", some "Principal Investigator",
          some "READ-WRITE-SHARE", some "PERMANENT"⟩] ∧
    filterOwnersAndPis (parseUsersFromStudyJson ⟨["Alice Smith (alice@x.org)"],
        ["Bob Jones (bob@x.org)"], [], some "Carol White",
        some "carol@x.org"⟩) =
      [⟨some "Alice Smith (alice@x.org)", some "Owner",
          some "READ-WRITE-SHARE", some "PERMANENT"⟩,
        ⟨some "Carol White (carol@x.org)", some "Principal Investigator",
          some "READ-WRITE-SHARE", some "PERMANENT"⟩] :=
  ⟨filterOwnersAndPis_eq_filter, by decide, by decide⟩

/-- C3 (spec-modelled): round-trip and failure behaviour of the canonical
NameBuilder / inverse parser pair of spec §4.1.  For every valid
`(workpackage, investigation_label, study_label)` triple (and slug),
building the canonical two-segment name and parsing it back recovers
exactly the same triple; and the parser fails with the corresponding
`MalformedName` condition on wrong segment count, a first segment without
the `i_` marker, a second segment without the `s_` marker, a missing
separator, and a mismatched investigation label between the segments. -/
theorem claim_c3_roundtrip_and_failures :
    (∀ wp inv st slug : List Char, validLabel wp → validLabel inv →
      validLabel st → validSlug slug →
      parseCanonicalName (buildCanonicalName wp inv st slug) =
        Except.ok (wp, inv, st)) ∧
    (∀ input : List Char, (splitOnChar '/' input).length ≠ 2 →
      parseCanonicalName input = Except.error MalformedName.wrongSegmentCount) ∧
    (∀ a b : List Char, ('/' : Char) ∉ a → ('/' : Char) ∉ b →
      (∀ r, a ≠ 'i' :: '_' :: r) →
      parseCanonicalName (a ++ '/' :: b) =
        Except.error MalformedName.missingPre) ∧
    (∀ wp inv b : List Char, ('_' : Char) ∉ wp → ('/' : Char) ∉ wp →
      ('/' : Char) ∉ inv → ('/' : Char) ∉ b → (∀ r, b ≠ 's' :: '_' :: r) →
      parseCanonicalName (('i' :: '_' :: (wp ++ '_' :: inv)) ++ '/' :: b) =
        Except.error MalformedName.missingPre) ∧
    (∀ rest1 b : List Char, ('/' : Char) ∉ rest1 → ('_' : Char) ∉ rest1 →
      ('/' : Char) ∉ b →
      parseCanonicalName (('i' :: '_' :: rest1) ++ '/' :: b) =
        Except.error MalformedName.missingSeparator) ∧
    (∀ wp inv inv2 st slug : List Char, validLabel wp → validLabel inv →
      validLabel inv2 → validLabel st → validSlug slug → inv ≠ inv2 →
      parseCanonicalName
        (('i' :: '_' :: (wp ++ '_' :: inv)) ++
          '/' :: ('s' :: '_' :: (inv2 ++ '-' :: (st ++ '_' :: slug)))) =
        Except.error MalformedName.labelMismatch) :=
  ⟨fun _ _ _ _ hwp hinv hst hslug =>
      parse_build_roundtrip hwp hinv hst hslug,
    fun _ h => parse_wrong_segments h,
    fun _ _ ha hb hshape => parse_missing_i_marker ha hb hshape,
    fun _ _ _ hwpU hwpS hinvS hb hshape =>
      parse_missing_s_marker hwpU hwpS hinvS hb hshape,
    fun _ _ hr hu hb => parse_missing_underscore hr hu hb,
    fun _ _ _ _ _ hwp hinv hinv2 hst hslug hne =>
      parse_label_mismatch hwp hinv hinv2 hst hslug hne⟩

theorem claim_c3_witness :
    parseCanonicalName (buildCanonicalName ['W', 'P', '1']
        ['C', 'X', 'R', '9'] ['S', 'T', 'U', '2']
        ['t', 'e', 's', 't']) =
      Except.ok (['W', 'P', '1'], ['C', 'X', 'R', '9'],
        ['S', 'T', 'U', '2']) ∧
    parseCanonicalName ['x'] = Except.error MalformedName.wrongSegmentCount ∧
    parseCanonicalName (['x'] ++ '/' :: ['y']) =
      Except.error MalformedName.missingPre ∧
    parseCanonicalName (('i' :: '_' :: (['W'] ++ '_' :: ['C'])) ++
        '/' :: ['y']) = Except.error MalformedName.missingPre ∧
    parseCanonicalName (('i' :: '_' :: ['W']) ++ '/' :: ['y']) =
      Except.error MalformedName.missingSeparator ∧
    parseCanonicalName
      (('i' :: '_' :: (['W'] ++ '_' :: ['C'])) ++
        '/' :: ('s' :: '_' :: (['D'] ++ '-' :: (['S'] ++ '_' :: ['t'])))) =
      Except.error MalformedName.labelMismatch :=
  ⟨claim_c3_roundtrip_and_failures.1 _ _ _ _ (by decide) (by decide)
      (by decide) (by decide),
    claim_c3_roundtrip_and_failures.2.1 _ (by decide),
    claim_c3_roundtrip_and_failures.2.2.1 _ _ (by decide) (by decide)
      (fun r => by simp),
    claim_c3_roundtrip_and_failures.2.2.2.1 _ _ _ (by decide) (by decide)
      (by decide) (by decide) (fun r => by simp),
    claim_c3_roundtrip_and_failures.2.2.2.2.1 _ _ (by decide) (by decide)
      (by decide),
    claim_c3_roundtrip_and_failures.2.2.2.2.2 _ _ _ _ _ (by decide)
      (by decide) (by decide) (by decide) (by decide) (by decide)⟩

theorem append_singleton_ne_self (l : Path) (a : String) : l ++ [a] ≠ l := by
  intro h
  have := congrArg List.length h
  simp at this

theorem dropLast_append_single (l : Path) (a : String) :
    (l ++ [a]).dropLast = l := by simp

theorem bak_ne_policy (folderPath : Path) (ts : String) :
    folderPath ++ ["FOLDER_POLICY.md.bak." ++ ts] ≠
      folderPath ++ ["FOLDER_POLICY.md"] := by
  intro hcontr
  have h := List.append_cancel_left hcontr
  have h2 : "FOLDER_POLICY.md.bak." ++ ts = "FOLDER_POLICY.md" :=
    List.head_eq_of_cons_eq h
  have h3 := congrArg String.length h2
  rw [String.length_append] at h3
  have e1 : ("FOLDER_POLICY.md.bak." : String).length = 21 := by decide
  have e2 : ("FOLDER_POLICY.md" : String).length = 16 := by decide
  omega

theorem tryCopy2_file_to_fresh {fs : FS} {src dst : Path} {orig : String}
    (hsrc : fsFind fs src = some (Entry.file orig))
    (hdst : fsFind fs dst = none) :
    tryCopy2 fs src dst = writeFile fs dst orig := by
  unfold tryCopy2
  simp only [hsrc, hdst]

theorem tryWrite_to_file {fs : FS} {p : Path} {c orig : String}
    (hpar : fsFind fs p.dropLast = some Entry.dir)
    (hfile : fsFind fs p = some (Entry.file orig)) :
    tryWrite fs p c = writeFile fs p c := by
  unfold tryWrite
  simp only [hpar, hfile]

/-- C4: when `FOLDER_POLICY.md` already exists at the root,
`create_folder_policy` with `overwrite_existing=False` returns the intended
path and leaves the whole state unchanged (content untouched, no backup
created); with `overwrite_existing=True` it first copies the existing file
to `FOLDER_POLICY.md.bak.<timestamp>` — producing exactly one new backup
whose content equals the original, every other path being untouched — and
then replaces the policy file with the newly rendered document. -/
theorem claim_c4_policy_skip_and_backup (fs : FS) (folderPath : Path)
    (il sl stt sv : Option String) (users : List UserRec)
    (pn pe wp : Option String) (today ts orig : String)
    (hpol : fsFind fs (folderPath ++ ["FOLDER_POLICY.md"]) =
      some (Entry.file orig))
    (hdir : fsFind fs folderPath = some Entry.dir)
    (hbak : fsFind fs (folderPath ++ ["FOLDER_POLICY.md.bak." ++ ts]) = none) :
    createFolderPolicy fs folderPath il sl stt sv users pn pe wp false
        today ts false false = (fs, folderPath ++ ["FOLDER_POLICY.md"]) ∧
    (createFolderPolicy fs folderPath il sl stt sv users pn pe wp true
        today ts false false).2 = folderPath ++ ["FOLDER_POLICY.md"] ∧
    fsFind (createFolderPolicy fs folderPath il sl stt sv users pn pe wp true
        today ts false false).1
        (folderPath ++ ["FOLDER_POLICY.md.bak." ++ ts]) =
      some (Entry.file orig) ∧
    fsFind (createFolderPolicy fs folderPath il sl stt sv users pn pe wp true
        today ts false false).1 (folderPath ++ ["FOLDER_POLICY.md"]) =
      some (Entry.file (renderPolicy il sl stt sv users pn pe wp today)) ∧
    ∀ p, p ≠ folderPath ++ ["FOLDER_POLICY.md"] →
      p ≠ folderPath ++ ["FOLDER_POLICY.md.bak." ++ ts] →
      fsFind (createFolderPolicy fs folderPath il sl stt sv users pn pe wp
        true today ts false false).1 p = fsFind fs p := by
  have hbpne : folderPath ++ ["FOLDER_POLICY.md.bak." ++ ts] ≠
      folderPath ++ ["FOLDER_POLICY.md"] := bak_ne_policy folderPath ts
  have hskip : createFolderPolicy fs folderPath il sl stt sv users pn pe wp
      false today ts false false = (fs, folderPath ++ ["FOLDER_POLICY.md"]) := by
    simp only [createFolderPolicy]
    rw [if_pos (by rw [hpol]; simp)]
  have hfs1 : fsFind (writeFile fs
      (folderPath ++ ["FOLDER_POLICY.md.bak." ++ ts]) orig)
      (folderPath ++ ["FOLDER_POLICY.md"]) = some (Entry.file orig) := by
    rw [fsFind_writeFile_of_ne (fun h => hbpne h.symm)]
    exact hpol
  have hpar1 : fsFind (writeFile fs
      (folderPath ++ ["FOLDER_POLICY.md.bak." ++ ts]) orig)
      (folderPath ++ ["FOLDER_POLICY.md"]).dropLast = some Entry.dir := by
    rw [dropLast_append_single]
    rw [fsFind_writeFile_of_ne
      (fun h => append_singleton_ne_self folderPath _ h.symm)]
    exact hdir
  have hres : createFolderPolicy fs folderPath il sl stt sv users pn pe wp
      true today ts false false =
      (writeFile (writeFile fs
          (folderPath ++ ["FOLDER_POLICY.md.bak." ++ ts]) orig)
        (folderPath ++ ["FOLDER_POLICY.md"])
        (renderPolicy il sl stt sv users pn pe wp today),
       folderPath ++ ["FOLDER_POLICY.md"]) := by
    simp only [createFolderPolicy]
    rw [if_neg (by rw [hpol]; simp)]
    rw [if_pos (by simp)]
    rw [if_neg (by simp)]
    rw [if_pos (by rw [hpol]; simp)]
    rw [if_neg (by simp)]
    rw [tryCopy2_file_to_fresh hpol hbak]
    rw [tryWrite_to_file hpar1 hfs1]
  refine ⟨hskip, by rw [hres], ?_, ?_, ?_⟩
  · rw [hres]
    simp only
    rw [fsFind_writeFile_of_ne hbpne]
    exact fsFind_writeFile_self _ _ _
  · rw [hres]
    simp only
    exact fsFind_writeFile_self _ _ _
  · intro p hp hb
    rw [hres]
    simp only
    rw [fsFind_writeFile_of_ne hp, fsFind_writeFile_of_ne hb]

theorem claim_c4_witness :
    createFolderPolicy
        [(["r"], Entry.dir), (["r", "FOLDER_POLICY.md"],
          Entry.file "Initial content")] ["r"] none none none none [] none
        none none false "D" "20250101_000000" false false =
      ([(["r"], Entry.dir), (["r", "FOLDER_POLICY.md"],
        Entry.file "Initial content")], ["r", "FOLDER_POLICY.md"]) ∧
    fsFind (createFolderPolicy
        [(["r"], Entry.dir), (["r", "FOLDER_POLICY.md"],
          Entry.file "Initial content")] ["r"] none none none none [] none
        none none true "D" "20250101_000000" false false).1
        ["r", "FOLDER_POLICY.md.bak.20250101_000000"] =
      some (Entry.file "Initial content") :=
  have h := claim_c4_policy_skip_and_backup
    [(["r"], Entry.dir), (["r", "FOLDER_POLICY.md"],
      Entry.file "Initial content")] ["r"] none none none none [] none none
    none "D" "20250101_000000" "Initial content" (by decide) (by decide)
    (by decide)
  ⟨h.1, by simpa using h.2.2.1⟩

theorem ite_write_fails {c : Prop} [Decidable c] (fs1 fsw : FS) :
    (if c then (if True then fs1 else fsw) else fs1) = fs1 := by
  split
  · rw [if_pos trivial]
  · rfl

/-- C9: `create_folder_policy` never raises on I/O failure (the
`shutil.copy2` and `open`/`write` calls sit inside `try/except` blocks,
modelled by the `copyFails`/`writeFails` flags and the guarded `tryCopy2`
and `tryWrite` — the function is total): (1) in every case — success, skip
or failure — it returns the intended path `<root>/FOLDER_POLICY.md`; (2) a
failure to back up the existing policy file does not abort the subsequent
write, which still replaces the policy content; (3) a failure to write
leaves the previous policy content in place and still returns normally. -/
theorem claim_c9_policy_failures (fs : FS) (folderPath : Path)
    (il sl stt sv : Option String) (users : List UserRec)
    (pn pe wp : Option String) (today ts orig : String)
    (overwriteExisting copyFails writeFails : Bool) :
    (createFolderPolicy fs folderPath il sl stt sv users pn pe wp
        overwriteExisting today ts copyFails writeFails).2 =
      folderPath ++ ["FOLDER_POLICY.md"] ∧
    (fsFind fs (folderPath ++ ["FOLDER_POLICY.md"]) =
        some (Entry.file orig) →
      fsFind fs folderPath = some Entry.dir →
      fsFind (createFolderPolicy fs folderPath il sl stt sv users pn pe wp
          true today ts true false).1 (folderPath ++ ["FOLDER_POLICY.md"]) =
        some (Entry.file (renderPolicy il sl stt sv users pn pe wp today))) ∧
    fsFind (createFolderPolicy fs folderPath il sl stt sv users pn pe wp
        overwriteExisting today ts copyFails true).1
        (folderPath ++ ["FOLDER_POLICY.md"]) =
      fsFind fs (folderPath ++ ["FOLDER_POLICY.md"]) := by
  refine ⟨cfp_snd fs folderPath il sl stt sv users pn pe wp
    overwriteExisting today ts copyFails writeFails, ?_, ?_⟩
  · intro hpol hdir
    have hres : createFolderPolicy fs folderPath il sl stt sv users pn pe wp
        true today ts true false =
        (writeFile fs (folderPath ++ ["FOLDER_POLICY.md"])
          (renderPolicy il sl stt sv users pn pe wp today),
         folderPath ++ ["FOLDER_POLICY.md"]) := by
      simp only [createFolderPolicy]
      rw [if_neg (by rw [hpol]; simp)]
      rw [if_pos (by simp)]
      rw [if_neg (by simp)]
      rw [if_pos (by rw [hpol]; simp)]
      rw [if_pos trivial]
      rw [tryWrite_to_file (by rw [dropLast_append_single]; exact hdir) hpol]
    rw [hres]
    exact fsFind_writeFile_self _ _ _
  · simp only [createFolderPolicy]
    by_cases h1 : ((fsFind fs (folderPath ++ ["FOLDER_POLICY.md"])).isSome &&
        !overwriteExisting) = true
    · rw [if_pos h1]
    · rw [if_neg h1]
      simp only
      by_cases h2 : ((fsFind fs (folderPath ++ ["FOLDER_POLICY.md"])).isSome &&
          overwriteExisting) = true
      · rw [ite_write_fails]
        rw [if_pos h2]
        by_cases hc : copyFails = true
        · rw [if_pos hc]
        · rw [if_neg hc]
          exact fsFind_tryCopy2_of_ne
            (fun h => bak_ne_policy folderPath ts h.symm)
            (by
              intro heq
              have hlen := congrArg List.length heq
              simp at hlen) fs
      · rw [ite_write_fails]
        rw [if_neg h2]

theorem claim_c9_witness :
    (createFolderPolicy [(["r"], Entry.dir),
        (["r", "FOLDER_POLICY.md"], Entry.file "old")] ["r"] none none none
        none [] none none none true "D" "T" true true).2 =
      ["r", "FOLDER_POLICY.md"] ∧
    fsFind (createFolderPolicy [(["r"], Entry.dir),
        (["r", "FOLDER_POLICY.md"], Entry.file "old")] ["r"] none none none
        none [] none none none true "D" "T" true false).1
        ["r", "FOLDER_POLICY.md"] =
      some (Entry.file (renderPolicy none none none none [] none none none
        "D")) ∧
    fsFind (createFolderPolicy [(["r"], Entry.dir),
        (["r", "FOLDER_POLICY.md"], Entry.file "old")] ["r"] none none none
        none [] none none none true "D" "T" true true).1
        ["r", "FOLDER_POLICY.md"] =
      fsFind [(["r"], Entry.dir),
        (["r", "FOLDER_POLICY.md"], Entry.file "old")]
        ["r", "FOLDER_POLICY.md"] :=
  have h := claim_c9_policy_failures [(["r"], Entry.dir),
    (["r", "FOLDER_POLICY.md"], Entry.file "old")] ["r"] none none none none
    [] none none none "D" "T" "old" true true true
  ⟨h.1, h.2.1 (by decide) (by decide), h.2.2⟩

theorem relabelStruct_eq_map (inv st : String)
    (entries : List (String × StructVal)) :
    relabelStruct inv st entries =
      entries.map (fun kv => (inv ++ "-" ++ st ++ "_" ++ kv.1, kv.2)) := by
  have h : ∀ (l acc : List (String × StructVal)),
      l.foldl (fun acc kv => acc ++ [(inv ++ "-" ++ st ++ "_" ++ kv.1, kv.2)])
          acc =
        acc ++ l.map (fun kv => (inv ++ "-" ++ st ++ "_" ++ kv.1, kv.2)) := by
    intro l
    induction l with
    | nil => intro acc; simp
    | cons x xs ih => intro acc; simp [List.foldl, ih]
  simpa [relabelStruct] using h entries []

/-- **C7.** When both `investigation_label` and `study_label` are given, the
relabelling loop of `create_folder_structure` (lines 154-163) rewrites every
first-level key `K` of the structure mapping to
`<investigation_label>-<study_label>_K`, keeping values (hence all deeper
keys) and insertion order unchanged; on the example structure
`{data: null, docs: [reports, protocols]}` with labels `(CXR9, STU2)` the
resolved first-level names are exactly `CXR9-STU2_data` and `CXR9-STU2_docs`,
and a run of `create_folder_structure` creates exactly the main study folder,
these two top-level folders, and `reports` and `protocols` as empty
subdirectories of the `docs` folder (besides the pre-existing target). -/
theorem claim_c7_first_level_relabel :
    (∀ (inv st : String) (entries : List (String × StructVal)),
      relabelStruct inv st entries =
        entries.map (fun kv => (inv ++ "-" ++ st ++ "_" ++ kv.1, kv.2))) ∧
    resolvedStruct
        ⟨["T"], none, some "CXR9", some "STU2", none, some "x", none, none,
          none, none, some "WP1",
          some [("data", StructVal.null),
            ("docs", StructVal.list ["reports", "protocols"])], false,
          false⟩ =
      [("CXR9-STU2_data", StructVal.null),
       ("CXR9-STU2_docs", StructVal.list ["reports", "protocols"])] ∧
    (∀ p : Path,
      isDir (createFolderStructure
          ⟨["T"], none, some "CXR9", some "STU2", none, some "x", none, none,
            none, none, some "WP1",
            some [("data", StructVal.null),
              ("docs", StructVal.list ["reports", "protocols"])], false,
            false⟩ "D" "TS" [(["T"], Entry.dir)]).1 p ↔
        p ∈ [["T"], ["T", "s_WP1-CXR9-STU2_x"],
          ["T", "s_WP1-CXR9-STU2_x", "CXR9-STU2_data"],
          ["T", "s_WP1-CXR9-STU2_x", "CXR9-STU2_docs"],
          ["T", "s_WP1-CXR9-STU2_x", "CXR9-STU2_docs", "reports"],
          ["T", "s_WP1-CXR9-STU2_x", "CXR9-STU2_docs", "protocols"]]) := by
  refine ⟨relabelStruct_eq_map, by rfl, ?_⟩
  intro p
  have hfs : (createFolderStructure
      ⟨["T"], none, some "CXR9", some "STU2", none, some "x", none, none,
        none, none, some "WP1",
        some [("data", StructVal.null),
          ("docs", StructVal.list ["reports", "protocols"])], false,
        false⟩ "D" "TS" [(["T"], Entry.dir)]).1 =
      [(["T", "s_WP1-CXR9-STU2_x", "FOLDER_POLICY.md"],
          Entry.file (renderPolicy (some "CXR9") (some "STU2") none none []
            none none (some "WP1") "D")),
       (["T", "s_WP1-CXR9-STU2_x", "CXR9-STU2_docs", "protocols"], Entry.dir),
       (["T", "s_WP1-CXR9-STU2_x", "CXR9-STU2_docs", "reports"], Entry.dir),
       (["T", "s_WP1-CXR9-STU2_x", "CXR9-STU2_docs"], Entry.dir),
       (["T", "s_WP1-CXR9-STU2_x", "CXR9-STU2_data"], Entry.dir),
       (["T", "s_WP1-CXR9-STU2_x"], Entry.dir),
       (["T"], Entry.dir)] := rfl
  rw [hfs]
  simp only [isDir, fsFind]
  split_ifs with h1 h2 h3 h4 h5 h6 h7
  · subst h1; decide
  · subst h2; decide
  · subst h3; decide
  · subst h4; decide
  · subst h5; decide
  · subst h6; decide
  · subst h7; decide
  · simp only [List.mem_cons, List.not_mem_nil, or_false]
    constructor
    · intro h; cases h
    · rintro (h | h | h | h | h | h) <;> exact absurd h.symm (by assumption)

/-- **C2 (counterexample).** The claim says every user-added file under the
tree that is not in the structure definition survives a run with identical
content, the sole exception being the policy file under explicit overwrite.
Refuted twice: with overwrite enabled, a user file sitting at the backup
path `FOLDER_POLICY.md.bak.<ts>` is clobbered by the backup copy of the old
policy; and when a user *directory* sits at the backup path,
`shutil.copy2` copies into it, clobbering a user file at
`FOLDER_POLICY.md.bak.<ts>/FOLDER_POLICY.md` instead.  Neither path is the
policy file. -/
theorem claim_c2_counterexample :
    fsFind [(([] : Path), Entry.dir), (["s_W-A-B_s"], Entry.dir),
        (["s_W-A-B_s", "FOLDER_POLICY.md"], Entry.file "P"),
        (["s_W-A-B_s", "FOLDER_POLICY.md.bak.T"], Entry.file "user data")]
        ["s_W-A-B_s", "FOLDER_POLICY.md.bak.T"] =
      some (Entry.file "user data") ∧
    (createFolderStructure
        ⟨[], none, some "A", some "B", none, some "s", none, none, none, none,
          some "W", some [], true, false⟩ "D" "T"
        [(([] : Path), Entry.dir), (["s_W-A-B_s"], Entry.dir),
         (["s_W-A-B_s", "FOLDER_POLICY.md"], Entry.file "P"),
         (["s_W-A-B_s", "FOLDER_POLICY.md.bak.T"],
           Entry.file "user data")]).2 = Except.ok ["s_W-A-B_s"] ∧
    ["s_W-A-B_s", "FOLDER_POLICY.md.bak.T"] ≠
      ["s_W-A-B_s", "FOLDER_POLICY.md"] ∧
    fsFind (createFolderStructure
        ⟨[], none, some "A", some "B", none, some "s", none, none, none, none,
          some "W", some [], true, false⟩ "D" "T"
        [(([] : Path), Entry.dir), (["s_W-A-B_s"], Entry.dir),
         (["s_W-A-B_s", "FOLDER_POLICY.md"], Entry.file "P"),
         (["s_W-A-B_s", "FOLDER_POLICY.md.bak.T"],
           Entry.file "user data")]).1
        ["s_W-A-B_s", "FOLDER_POLICY.md.bak.T"] = some (Entry.file "P") ∧
    ("P" : String) ≠ "user data" ∧
    fsFind [(([] : Path), Entry.dir), (["s_W-A-B_s"], Entry.dir),
        (["s_W-A-B_s", "FOLDER_POLICY.md"], Entry.file "P"),
        (["s_W-A-B_s", "FOLDER_POLICY.md.bak.T"], Entry.dir),
        (["s_W-A-B_s", "FOLDER_POLICY.md.bak.T", "FOLDER_POLICY.md"],
          Entry.file "user data")]
        ["s_W-A-B_s", "FOLDER_POLICY.md.bak.T", "FOLDER_POLICY.md"] =
      some (Entry.file "user data") ∧
    fsFind (createFolderStructure
        ⟨[], none, some "A", some "B", none, some "s", none, none, none, none,
          some "W", some [], true, false⟩ "D" "T"
        [(([] : Path), Entry.dir), (["s_W-A-B_s"], Entry.dir),
         (["s_W-A-B_s", "FOLDER_POLICY.md"], Entry.file "P"),
         (["s_W-A-B_s", "FOLDER_POLICY.md.bak.T"], Entry.dir),
         (["s_W-A-B_s", "FOLDER_POLICY.md.bak.T", "FOLDER_POLICY.md"],
           Entry.file "user data")]).1
        ["s_W-A-B_s", "FOLDER_POLICY.md.bak.T", "FOLDER_POLICY.md"] =
      some (Entry.file "P") ∧
    ["s_W-A-B_s", "FOLDER_POLICY.md.bak.T", "FOLDER_POLICY.md"] ≠
      ["s_W-A-B_s", "FOLDER_POLICY.md"] :=
  ⟨rfl, rfl, by decide, rfl, by decide, rfl, rfl, by decide⟩

/-- **C2 (amended).** What `create_folder_structure` does guarantee: it never
removes or renames anything (every directory stays a directory, every
existing path keeps an entry); on a successful run every user file other
than the policy file `FOLDER_POLICY.md`, its timestamped backup path
`FOLDER_POLICY.md.bak.<ts>`, and `FOLDER_POLICY.md.bak.<ts>/FOLDER_POLICY.md`
(the target `shutil.copy2` overwrites when a directory occupies the backup
path) keeps its exact content; on an error the filesystem is returned
unchanged; and running it twice with identical arguments yields an
identical directory set. -/
theorem claim_c2_amended (args : CfsArgs) (today ts : String) (fs : FS) :
    (∀ p : Path, isDir fs p →
      isDir (createFolderStructure args today ts fs).1 p) ∧
    (∀ p : Path, (fsFind fs p).isSome →
      (fsFind (createFolderStructure args today ts fs).1 p).isSome) ∧
    (∀ (p mp : Path) (c : String),
      (createFolderStructure args today ts fs).2 = Except.ok mp →
      fsFind fs p = some (Entry.file c) →
      p ≠ mp ++ ["FOLDER_POLICY.md"] →
      p ≠ mp ++ ["FOLDER_POLICY.md.bak." ++ ts] →
      p ≠ mp ++ ["FOLDER_POLICY.md.bak." ++ ts, "FOLDER_POLICY.md"] →
      fsFind (createFolderStructure args today ts fs).1 p =
        some (Entry.file c)) ∧
    (∀ r : PyError, (createFolderStructure args today ts fs).2 =
        Except.error r →
      (createFolderStructure args today ts fs).1 = fs) ∧
    (∀ p : Path,
      isDir (createFolderStructure args today ts
          (createFolderStructure args today ts fs).1).1 p ↔
        isDir (createFolderStructure args today ts fs).1 p) :=
  ⟨fun _ h => cfs_isDir h, fun _ h => cfs_isSome h,
   fun _ _ _ hres h hp hb hbp => cfs_file_preserve hres h hp hb hbp,
   fun _ hres => cfs_error_fst hres, fun p => cfs_idem_dir p⟩

theorem claim_c2_amended_witness :
    isDir (createFolderStructure
        ⟨[], none, some "A", some "B", none, some "s", none, none, none, none,
          some "W", some [], false, false⟩ "D" "T"
        [(([] : Path), Entry.dir), (["u.txt"], Entry.file "hi")]).1 [] ∧
    (fsFind (createFolderStructure
        ⟨[], none, some "A", some "B", none, some "s", none, none, none, none,
          some "W", some [], false, false⟩ "D" "T"
        [(([] : Path), Entry.dir), (["u.txt"], Entry.file "hi")]).1
        ["u.txt"]).isSome ∧
    fsFind (createFolderStructure
        ⟨[], none, some "A", some "B", none, some "s", none, none, none, none,
          some "W", some [], false, false⟩ "D" "T"
        [(([] : Path), Entry.dir), (["u.txt"], Entry.file "hi")]).1
        ["u.txt"] = some (Entry.file "hi") ∧
    (createFolderStructure
        ⟨[], none, some "A", some "B", none, some "s", none, none, none, none,
          some "W", some [], false, false⟩ "D" "T" ([] : FS)).1 = [] :=
  ⟨(claim_c2_amended
      ⟨[], none, some "A", some "B", none, some "s", none, none, none, none,
        some "W", some [], false, false⟩ "D" "T"
      [(([] : Path), Entry.dir), (["u.txt"], Entry.file "hi")]).1 []
    (by decide),
   (claim_c2_amended
      ⟨[], none, some "A", some "B", none, some "s", none, none, none, none,
        some "W", some [], false, false⟩ "D" "T"
      [(([] : Path), Entry.dir), (["u.txt"], Entry.file "hi")]).2.1 ["u.txt"]
    (by decide),
   (claim_c2_amended
      ⟨[], none, some "A", some "B", none, some "s", none, none, none, none,
        some "W", some [], false, false⟩ "D" "T"
      [(([] : Path), Entry.dir), (["u.txt"], Entry.file "hi")]).2.2.1
    ["u.txt"] ["s_W-A-B_s"] "hi" rfl rfl (by decide) (by decide) (by decide),
   (claim_c2_amended
      ⟨[], none, some "A", some "B", none, some "s", none, none, none, none,
        some "W", some [], false, false⟩ "D" "T" ([] : FS)).2.2.2.1
    PyError.fileNotFound rfl⟩

end DataXR
